import Mathlib

/-!
# Verification of the Tanda (ROSCA) contract core

Shallow embedding of `src/soroban-tanda/src/lib.rs` (a rotating savings and
credit association on Soroban) and proofs about its lifecycle state machine.

Modelling conventions:
* Addresses, timestamps and string-valued identifiers are modelled as `Nat`
  (the contract only compares them for equality); token amounts are `Int`
  (Rust `i128`, overflow never approached by the claims).
* The per-tanda persistent storage (keys `Tanda(id)` and `Members(id)`) is an
  explicit record `St` with two optional slots; `get_members_internal`'s
  `unwrap_or(Vec::new())` becomes `Option.getD []`.
* A Rust `panic!` is an operation-aborting failure: each operation returns the
  store it persisted together with an optional error. Since on Soroban a panic
  reverts the whole invocation, and since in the source every storage write
  happens only after the last possible panic, an aborting run returns the
  input store unchanged (this is proved, not assumed, in the atomicity claim).
* External token transfers are an oracle `XferOk`; a transfer whose oracle
  answer is `false` aborts the operation like a panic. Successful operations
  also report the list of transfers they issued.
-/

namespace TandaContract

/-- Days before a member can be expelled for non-payment (`DELINQUENCY_DAYS`). -/
def DELINQUENCY_DAYS : Nat := 6

/-- Seconds in a day (`SECONDS_PER_DAY`). -/
def SECONDS_PER_DAY : Nat := 86400

/-- The delinquency window in seconds, `DELINQUENCY_DAYS * SECONDS_PER_DAY`. -/
def delinquencySeconds : Nat := DELINQUENCY_DAYS * SECONDS_PER_DAY

/-- Account identities; the contract only compares them for equality. -/
abbrev Addr := Nat

/-- `TandaStatus` from the source. -/
inductive TandaStatus where
  | Forming
  | Active
  | Completed
  | Cancelled
deriving DecidableEq

/-- `MemberStatus` from the source. -/
inductive MemberStatus where
  | Active
  | Received
  | Expelled
deriving DecidableEq

/-- `Member` record from the source. -/
structure Member where
  address : Addr
  status : MemberStatus
  position : Nat
  has_deposited : Bool
  joined_at : Nat
deriving DecidableEq

/-- `Tanda` record from the source (`id`/`name` as opaque numbers). -/
structure Tanda where
  id : Nat
  name : Nat
  creator : Addr
  amount : Int
  max_members : Nat
  status : TandaStatus
  current_cycle : Nat
  total_cycles : Nat
  created_at : Nat
  started_at : Nat
  last_payout_at : Nat
deriving DecidableEq

/-- The per-tanda persistent storage: keys `DataKey::Tanda(id)` and
`DataKey::Members(id)`; `none` means the key is absent. -/
structure St where
  tanda : Option Tanda
  members : Option (List Member)
deriving DecidableEq

/-- Global contract configuration relevant to the claims: the contract's own
address (pool), the commission sink and `CommissionBps`. -/
structure Cfg where
  contractAddr : Addr
  commissionAddr : Addr
  commission_bps : Nat
deriving DecidableEq

/-- One issued token transfer `transfer(source, dest, amount)`. -/
structure Transfer where
  source : Addr
  dest : Addr
  amount : Int
deriving DecidableEq

/-- Outcome oracle for the external token contract. -/
abbrev XferOk := Addr → Addr → Int → Bool

/-- One error per distinct `panic!` message reached by the modelled
operations. -/
inductive Err where
  | tandaNotFound          -- "tanda not found"
  | notAcceptingMembers    -- "tanda not accepting members"
  | tandaFull              -- "tanda is full"
  | alreadyMember          -- "already a member"
  | onlyCreatorStart       -- "only creator can start"
  | notForming             -- "tanda not in forming state"
  | needTwoMembers         -- "need at least 2 members"
  | notActive              -- "tanda not active"
  | memberExpelled         -- "member was expelled"
  | alreadyDeposited       -- "already deposited this cycle"
  | notAMember             -- "not a member"
  | notAllDeposited        -- "not all members have deposited"
  | beneficiaryNotFound    -- "beneficiary not found"
  | delinquencyNotPassed   -- "delinquency period not passed"
  | alreadyExpelled        -- "already expelled"
  | hasDeposited           -- "member has deposited"
  | memberNotFound         -- "member not found"
  | onlyCreatorCancel      -- "only creator can cancel"
  | onlyFormingCancel      -- "can only cancel while forming"
  | transferFailed         -- external token transfer failed
deriving DecidableEq

/-- Result of an operation: the store it persisted (the input store when it
aborted), the transfers it issued, and the error it aborted with, if any. -/
structure OpOut where
  st : St
  transfers : List Transfer
  err : Option Err
deriving DecidableEq

/-- Result of `advance`, which additionally returns a `bool`. -/
structure AdvOut where
  st : St
  transfers : List Transfer
  err : Option Err
  ret : Bool
deriving DecidableEq

/-- `get_members_internal`: missing roster defaults to the empty vector. -/
def getMembers (s : St) : List Member :=
  s.members.getD []

/-- `get_tanda_internal` / `get_tanda`: panics when the tanda is absent. -/
def get_tanda (s : St) : Except Err Tanda :=
  match s.tanda with
  | none => .error .tandaNotFound
  | some t => .ok t

/-- A member that the expulsion logic treats as delinquent once the deadline
has passed: not expelled and not deposited. -/
def delinquent (m : Member) : Bool :=
  decide (m.status ≠ MemberStatus.Expelled) && !m.has_deposited

/-- Count of non-Expelled members (`active_count` in the source loops). -/
def activeCount (ms : List Member) : Nat :=
  (ms.filter (fun m => decide (m.status ≠ MemberStatus.Expelled))).length

/-- Count of Expelled members. -/
def expelledCount (ms : List Member) : Nat :=
  (ms.filter (fun m => decide (m.status = MemberStatus.Expelled))).length

/-- `all_deposited` over a roster: every non-Expelled member has deposited. -/
def allDepositedB (ms : List Member) : Bool :=
  ms.all (fun m => decide (m.status = MemberStatus.Expelled) || m.has_deposited)

/-- Beneficiary search shared by `trigger_payout`, `advance` and
`get_beneficiary`: the source loop keeps overwriting the candidate, so the
result is the LAST member (in roster order) whose `position` matches and whose
status is `Active`. -/
def findBeneficiary (pos : Nat) : List Member → Option Addr
  | [] => none
  | m :: rest =>
    match findBeneficiary pos rest with
    | some x => some x
    | none =>
      if m.position = pos ∧ m.status = MemberStatus.Active then some m.address
      else none

/-- The post-payout roster rewrite shared by `trigger_payout` and `advance`:
mark the recipient `Received`, reset every `has_deposited` flag. -/
def payoutMap (r : Addr) (ms : List Member) : List Member :=
  ms.map (fun m =>
    { m with
      status := if m.address = r then MemberStatus.Received else m.status,
      has_deposited := false })

/-- Position renumbering pass (`new_position` loop after an expulsion):
non-Expelled members are renumbered `p, p+1, ...` in roster order, Expelled
members keep their stale positions. -/
def renumberGo (p : Nat) : List Member → List Member
  | [] => []
  | m :: rest =>
    if m.status ≠ MemberStatus.Expelled then
      { m with position := p } :: renumberGo (p + 1) rest
    else
      m :: renumberGo p rest

/-- `renumber` starting from position 0, as both expulsion sites do. -/
def renumber (ms : List Member) : List Member :=
  renumberGo 0 ms

/-- `advance` step 1, per-member effect: every non-Expelled, non-deposited
member is expelled. -/
def expelPass (ms : List Member) : List Member :=
  ms.map (fun m =>
    if delinquent m then { m with status := MemberStatus.Expelled } else m)

/-- Number of `total_cycles` decrements `advance` step 1 performs: one per
expelled member who had not yet received. -/
def expelPassDecr (ms : List Member) : Nat :=
  (ms.filter (fun m =>
    delinquent m && decide (m.status ≠ MemberStatus.Received))).length

/-- Whether `advance` step 1 expels anyone: some member is delinquent. -/
def expelledAnyB (ms : List Member) : Bool :=
  ms.any delinquent

/-- The member-scan of `expel_delinquent`: walks the roster, panics on an
already-Expelled or already-deposited target, expels every address match, and
reports whether a match was found and whether the LAST match had `Received`
status (the source overwrites `had_received` on every match). -/
def expelScan (a : Addr) : List Member → Except Err (List Member × Bool × Bool)
  | [] => .ok ([], false, false)
  | m :: rest =>
    if m.address = a then
      if m.status = MemberStatus.Expelled then .error .alreadyExpelled
      else if m.has_deposited then .error .hasDeposited
      else
        match expelScan a rest with
        | .error e => .error e
        | .ok (r, f, hr) =>
          .ok ({ m with status := MemberStatus.Expelled } :: r, true,
               if f then hr else decide (m.status = MemberStatus.Received))
    else
      match expelScan a rest with
      | .error e => .error e
      | .ok (r, f, hr) => .ok (m :: r, f, hr)

/-- The member-scan of `deposit`: the source breaks at the FIRST address
match, panicking there if that member is Expelled or has already deposited;
returns the match's index and record. -/
def findMemberIdx (a : Addr) : List Member → Except Err (Option (Nat × Member))
  | [] => .ok none
  | m :: rest =>
    if m.address = a then
      if m.status = MemberStatus.Expelled then .error .memberExpelled
      else if m.has_deposited then .error .alreadyDeposited
      else .ok (some (0, m))
    else
      match findMemberIdx a rest with
      | .error e => .error e
      | .ok none => .ok none
      | .ok (some (i, x)) => .ok (some (i + 1, x))

/-- The member-scan of `can_expel`: returns at the FIRST address match. -/
def canExpelMember (a : Addr) : List Member → Bool
  | [] => false
  | m :: rest =>
    if m.address = a then
      decide (m.status ≠ MemberStatus.Expelled) && !m.has_deposited
    else canExpelMember a rest

-- ==================== OPERATIONS ====================

/-- `join_tanda` (while Forming). -/
def join_tanda (now : Nat) (user : Addr) (s : St) : OpOut :=
  match s.tanda with
  | none => ⟨s, [], some .tandaNotFound⟩
  | some t =>
    if t.status ≠ TandaStatus.Forming then ⟨s, [], some .notAcceptingMembers⟩
    else
      let ms := getMembers s
      if ms.length ≥ t.max_members then ⟨s, [], some .tandaFull⟩
      else if ms.any (fun m => m.address = user) then ⟨s, [], some .alreadyMember⟩
      else
        ⟨⟨s.tanda,
          some (ms ++ [⟨user, MemberStatus.Active, ms.length, false, now⟩])⟩,
         [], none⟩

/-- `start_tanda` (creator only, needs ≥ 2 members). -/
def start_tanda (now : Nat) (caller : Addr) (s : St) : OpOut :=
  match s.tanda with
  | none => ⟨s, [], some .tandaNotFound⟩
  | some t =>
    if t.creator ≠ caller then ⟨s, [], some .onlyCreatorStart⟩
    else if t.status ≠ TandaStatus.Forming then ⟨s, [], some .notForming⟩
    else
      let ms := getMembers s
      if ms.length < 2 then ⟨s, [], some .needTwoMembers⟩
      else
        ⟨⟨some { t with
            status := TandaStatus.Active,
            started_at := now,
            last_payout_at := now,
            current_cycle := 1,
            total_cycles := ms.length }, s.members⟩,
         [], none⟩

/-- `deposit` for the current cycle; commission is `i128` division, i.e.
truncation toward zero (`Int.tdiv`). -/
def deposit (cfg : Cfg) (xf : XferOk) (user : Addr) (s : St) : OpOut :=
  match s.tanda with
  | none => ⟨s, [], some .tandaNotFound⟩
  | some t =>
    if t.status ≠ TandaStatus.Active then ⟨s, [], some .notActive⟩
    else
      let ms := getMembers s
      match findMemberIdx user ms with
      | .error e => ⟨s, [], some e⟩
      | .ok none => ⟨s, [], some .notAMember⟩
      | .ok (some (i, m)) =>
        let commission := Int.tdiv (t.amount * (cfg.commission_bps : Int)) 10000
        if xf user cfg.contractAddr t.amount then
          if commission > 0 then
            if xf user cfg.commissionAddr commission then
              ⟨⟨s.tanda, some (ms.set i { m with has_deposited := true })⟩,
               [⟨user, cfg.contractAddr, t.amount⟩,
                ⟨user, cfg.commissionAddr, commission⟩], none⟩
            else ⟨s, [], some .transferFailed⟩
          else
            ⟨⟨s.tanda, some (ms.set i { m with has_deposited := true })⟩,
             [⟨user, cfg.contractAddr, t.amount⟩], none⟩
        else ⟨s, [], some .transferFailed⟩

/-- `trigger_payout`: pays `amount * active_count` to the current beneficiary
once every non-Expelled member has deposited. -/
def trigger_payout (cfg : Cfg) (xf : XferOk) (now : Nat) (s : St) : OpOut :=
  match s.tanda with
  | none => ⟨s, [], some .tandaNotFound⟩
  | some t =>
    if t.status ≠ TandaStatus.Active then ⟨s, [], some .notActive⟩
    else
      let ms := getMembers s
      if ¬ allDepositedB ms then ⟨s, [], some .notAllDeposited⟩
      else
        match findBeneficiary (t.current_cycle - 1) ms with
        | none => ⟨s, [], some .beneficiaryNotFound⟩
        | some r =>
          let payout := t.amount * (activeCount ms : Int)
          if xf cfg.contractAddr r payout then
            let cyc := t.current_cycle + 1
            ⟨⟨some { t with
                current_cycle := cyc,
                last_payout_at := now,
                status :=
                  if cyc > t.total_cycles then TandaStatus.Completed
                  else t.status },
              some (payoutMap r ms)⟩,
             [⟨cfg.contractAddr, r, payout⟩], none⟩
          else ⟨s, [], some .transferFailed⟩

/-- `expel_delinquent`: expels one delinquent after the 6-day deadline;
decrements `total_cycles` when the target had not yet received; renumbers. -/
def expel_delinquent (now : Nat) (target : Addr) (s : St) : OpOut :=
  match s.tanda with
  | none => ⟨s, [], some .tandaNotFound⟩
  | some t =>
    if t.status ≠ TandaStatus.Active then ⟨s, [], some .notActive⟩
    else if now < t.last_payout_at + delinquencySeconds then
      ⟨s, [], some .delinquencyNotPassed⟩
    else
      match expelScan target (getMembers s) with
      | .error e => ⟨s, [], some e⟩
      | .ok (ms1, found, hadReceived) =>
        if ¬ found then ⟨s, [], some .memberNotFound⟩
        else
          ⟨⟨some { t with
              total_cycles :=
                if hadReceived then t.total_cycles else t.total_cycles - 1 },
            some (renumber ms1)⟩,
           [], none⟩

/-- The roster after `advance`'s step 1: when the deadline has passed and
someone is delinquent, the source expels them all and renumbers once;
otherwise the roster is untouched. -/
def advMembers1 (dl : Bool) (ms : List Member) : List Member :=
  if dl && expelledAnyB ms then renumber (expelPass ms) else ms

/-- `total_cycles` after `advance`'s step 1: one decrement per expelled
member who had not yet received. -/
def advTotalAfter (dl : Bool) (tc : Nat) (ms : List Member) : Nat :=
  if dl then tc - expelPassDecr ms else tc

/-- `advance`: expel all delinquents (if the deadline passed), complete when
≤ 1 non-Expelled members remain, otherwise pay out when everyone deposited;
returns `expelled_any || all_deposited` (or just `expelled_any` on the
early-completion path). -/
def advance (cfg : Cfg) (xf : XferOk) (now : Nat) (s : St) : AdvOut :=
  match s.tanda with
  | none => ⟨s, [], some .tandaNotFound, false⟩
  | some t =>
    if t.status ≠ TandaStatus.Active then ⟨s, [], some .notActive, false⟩
    else
      let dl : Bool := decide (now ≥ t.last_payout_at + delinquencySeconds)
      let ms0 := getMembers s
      let expAny := dl && expelledAnyB ms0
      let totalAfter := advTotalAfter dl t.total_cycles ms0
      let ms1 := advMembers1 dl ms0
      let ac := activeCount ms1
      if ac ≤ 1 then
        ⟨⟨some { t with status := TandaStatus.Completed,
                        total_cycles := totalAfter },
          some ms1⟩, [], none, expAny⟩
      else
        let ad := allDepositedB ms1
        if ad then
          match findBeneficiary (t.current_cycle - 1) ms1 with
          | none => ⟨s, [], some .beneficiaryNotFound, false⟩
          | some r =>
            let payout := t.amount * (ac : Int)
            if xf cfg.contractAddr r payout then
              let cyc := t.current_cycle + 1
              ⟨⟨some { t with
                  current_cycle := cyc,
                  last_payout_at := now,
                  total_cycles := totalAfter,
                  status :=
                    if cyc > totalAfter then TandaStatus.Completed
                    else t.status },
                some (payoutMap r ms1)⟩,
               [⟨cfg.contractAddr, r, payout⟩], none, expAny || ad⟩
            else ⟨s, [], some .transferFailed, false⟩
        else
          ⟨⟨some { t with total_cycles := totalAfter }, some ms1⟩,
           [], none, expAny || ad⟩

/-- `cancel_tanda` (creator only, Forming only). -/
def cancel_tanda (caller : Addr) (s : St) : OpOut :=
  match s.tanda with
  | none => ⟨s, [], some .tandaNotFound⟩
  | some t =>
    if t.creator ≠ caller then ⟨s, [], some .onlyCreatorCancel⟩
    else if t.status ≠ TandaStatus.Forming then ⟨s, [], some .onlyFormingCancel⟩
    else
      ⟨⟨some { t with status := TandaStatus.Cancelled }, s.members⟩, [], none⟩

-- ==================== VIEW FUNCTIONS ====================

/-- `get_members` view: never fails, defaults to the empty roster. -/
def get_members (s : St) : List Member :=
  getMembers s

/-- `all_deposited` view. -/
def all_deposited (s : St) : Bool :=
  allDepositedB (getMembers s)

/-- `can_expel` view: pure predicate (it computes a `Bool` and persists
nothing); panics only when the tanda does not exist. -/
def can_expel (now : Nat) (a : Addr) (s : St) : Except Err Bool :=
  match s.tanda with
  | none => .error .tandaNotFound
  | some t =>
    if t.status ≠ TandaStatus.Active then .ok false
    else if now < t.last_payout_at + delinquencySeconds then .ok false
    else .ok (canExpelMember a (getMembers s))

/-- `time_to_deadline` view. -/
def time_to_deadline (now : Nat) (s : St) : Except Err Nat :=
  match s.tanda with
  | none => .error .tandaNotFound
  | some t =>
    if now ≥ t.last_payout_at + delinquencySeconds then .ok 0
    else .ok (t.last_payout_at + delinquencySeconds - now)

/-- The members `get_advance_status` treats as remaining after the simulated
expulsion pass (non-Expelled and not about-to-be-expelled). -/
def remainingPreview (dl : Bool) (ms : List Member) : List Member :=
  ms.filter (fun m =>
    decide (m.status ≠ MemberStatus.Expelled) && !(dl && !m.has_deposited))

/-- The members `get_advance_status` counts as about to be expelled. -/
def expelCountPreview (dl : Bool) (ms : List Member) : Nat :=
  (ms.filter (fun m =>
    decide (m.status ≠ MemberStatus.Expelled) && (dl && !m.has_deposited))).length

/-- `get_advance_status` view: `(can_advance, will_expel_count, will_payout,
beneficiary_if_payout)`. The beneficiary is searched among the remaining
members USING THEIR STORED (pre-renumbering) POSITIONS. -/
def get_advance_status (now : Nat) (s : St) :
    Except Err (Bool × Nat × Bool × Option Addr) :=
  match s.tanda with
  | none => .error .tandaNotFound
  | some t =>
    if t.status ≠ TandaStatus.Active then .ok (false, 0, false, none)
    else
      let dl : Bool := decide (now ≥ t.last_payout_at + delinquencySeconds)
      let ms := getMembers s
      let ec := expelCountPreview dl ms
      let rem := remainingPreview dl ms
      let rt := rem.length
      let rd := (rem.filter (fun m => m.has_deposited)).length
      let b := findBeneficiary (t.current_cycle - 1) rem
      let wp : Bool := decide (rt > 1) && decide (rd = rt)
      let ca : Bool := decide (ec > 0) || wp
      .ok (ca, ec, wp, b)

-- ==================== HELPER LEMMAS ====================

/-- Everything about a member except its position. -/
def memberKey (m : Member) : Addr × MemberStatus × Bool × Nat :=
  (m.address, m.status, m.has_deposited, m.joined_at)

/-- Positions held by the non-Expelled members, in roster order. -/
def activePositions (ms : List Member) : List Nat :=
  (ms.filter (fun m => decide (m.status ≠ MemberStatus.Expelled))).map
    (fun m => m.position)

theorem renumberGo_map_key (p : Nat) (ms : List Member) :
    (renumberGo p ms).map memberKey = ms.map memberKey := by
  induction ms generalizing p with
  | nil => rfl
  | cons m rest ih =>
    simp only [renumberGo]
    split <;> simp [memberKey, ih]

theorem renumber_map_key (ms : List Member) :
    (renumber ms).map memberKey = ms.map memberKey :=
  renumberGo_map_key 0 ms

theorem renumberGo_length (p : Nat) (ms : List Member) :
    (renumberGo p ms).length = ms.length := by
  induction ms generalizing p with
  | nil => rfl
  | cons m rest ih =>
    simp only [renumberGo]
    split <;> simp [ih]

theorem renumberGo_positions (p : Nat) (ms : List Member) :
    activePositions (renumberGo p ms) = List.range' p (activeCount ms) := by
  induction ms generalizing p with
  | nil => rfl
  | cons m rest ih =>
    simp only [renumberGo]
    by_cases hm : m.status = MemberStatus.Expelled
    · simpa [hm, activePositions, activeCount, List.filter_cons] using ih p
    · have h2 := ih (p + 1)
      simp [activePositions, activeCount, List.filter_cons] at h2 ⊢
      simp [hm, List.range'_succ, h2]

theorem renumberGo_status (p : Nat) (ms : List Member) :
    (renumberGo p ms).map (fun m => m.status) = ms.map (fun m => m.status) := by
  induction ms generalizing p with
  | nil => rfl
  | cons m rest ih =>
    simp only [renumberGo]
    split <;> simp [ih]

theorem renumberGo_address (p : Nat) (ms : List Member) :
    (renumberGo p ms).map (fun m => m.address) = ms.map (fun m => m.address) := by
  induction ms generalizing p with
  | nil => rfl
  | cons m rest ih =>
    simp only [renumberGo]
    split <;> simp [ih]

theorem renumberGo_deposited (p : Nat) (ms : List Member) :
    (renumberGo p ms).map (fun m => m.has_deposited)
      = ms.map (fun m => m.has_deposited) := by
  induction ms generalizing p with
  | nil => rfl
  | cons m rest ih =>
    simp only [renumberGo]
    split <;> simp [ih]

theorem activeCount_renumberGo (p : Nat) (ms : List Member) :
    activeCount (renumberGo p ms) = activeCount ms := by
  induction ms generalizing p with
  | nil => rfl
  | cons m rest ih =>
    simp only [renumberGo]
    by_cases hm : m.status = MemberStatus.Expelled
    · simpa [hm, activeCount, List.filter_cons] using ih p
    · simpa [hm, activeCount, List.filter_cons] using ih (p + 1)

theorem activeCount_renumber (ms : List Member) :
    activeCount (renumber ms) = activeCount ms :=
  activeCount_renumberGo 0 ms

theorem renumber_positions (ms : List Member) :
    activePositions (renumber ms) = List.range (activeCount ms) := by
  rw [renumber, renumberGo_positions, List.range_eq_range']

theorem allDepositedB_renumberGo (p : Nat) (ms : List Member) :
    allDepositedB (renumberGo p ms) = allDepositedB ms := by
  induction ms generalizing p with
  | nil => rfl
  | cons m rest ih =>
    simp only [renumberGo]
    by_cases hm : m.status = MemberStatus.Expelled
    · have h2 := ih p
      simp only [allDepositedB] at h2 ⊢
      simp [hm, h2]
    · have h2 := ih (p + 1)
      simp only [allDepositedB] at h2 ⊢
      simp [hm, h2]

theorem expelledCount_renumberGo (p : Nat) (ms : List Member) :
    expelledCount (renumberGo p ms) = expelledCount ms := by
  induction ms generalizing p with
  | nil => rfl
  | cons m rest ih =>
    simp only [renumberGo]
    by_cases hm : m.status = MemberStatus.Expelled
    · simpa [hm, expelledCount, List.filter_cons] using ih p
    · simpa [hm, expelledCount, List.filter_cons] using ih (p + 1)

theorem activeCount_expelPass (ms : List Member) :
    activeCount (expelPass ms)
      = (ms.filter (fun m =>
          decide (m.status ≠ MemberStatus.Expelled) && m.has_deposited)).length := by
  induction ms with
  | nil => rfl
  | cons m rest ih =>
    by_cases hm : m.status = MemberStatus.Expelled
    · simp [expelPass, activeCount, delinquent, List.filter_cons, hm] at ih ⊢
      exact ih
    · by_cases hdep : m.has_deposited = true
      · simp [expelPass, activeCount, delinquent, List.filter_cons, hm, hdep]
          at ih ⊢
        exact ih
      · simp [expelPass, activeCount, delinquent, List.filter_cons, hm, hdep]
          at ih ⊢
        exact ih

theorem allDepositedB_expelPass (ms : List Member) :
    allDepositedB (expelPass ms) = true := by
  induction ms with
  | nil => rfl
  | cons m rest ih =>
    by_cases hm : m.status = MemberStatus.Expelled
    · simp [expelPass, allDepositedB, delinquent, hm] at ih ⊢
      exact ih
    · by_cases hdep : m.has_deposited = true
      · simp [expelPass, allDepositedB, delinquent, hm, hdep] at ih ⊢
        exact ih
      · simp [expelPass, allDepositedB, delinquent, hm, hdep] at ih ⊢
        exact ih

theorem expelledCount_expelPass (ms : List Member) :
    expelledCount (expelPass ms)
      = expelledCount ms + (ms.filter delinquent).length := by
  induction ms with
  | nil => rfl
  | cons m rest ih =>
    by_cases hm : m.status = MemberStatus.Expelled
    · simp [expelPass, expelledCount, delinquent, List.filter_cons, hm] at ih ⊢
      omega
    · by_cases hdep : m.has_deposited = true
      · simp [expelPass, expelledCount, delinquent, List.filter_cons, hm, hdep]
          at ih ⊢
        omega
      · simp [expelPass, expelledCount, delinquent, List.filter_cons, hm, hdep]
          at ih ⊢
        omega

theorem expelPass_map_address (ms : List Member) :
    (expelPass ms).map (fun m => m.address) = ms.map (fun m => m.address) := by
  induction ms with
  | nil => rfl
  | cons m rest ih =>
    simp only [expelPass, List.map_cons] at *
    split <;> simp [ih]

theorem expelPass_eq_self (ms : List Member) (h : expelledAnyB ms = false) :
    expelPass ms = ms := by
  induction ms with
  | nil => rfl
  | cons m rest ih =>
    simp only [expelledAnyB, List.any_cons, Bool.or_eq_false_iff] at h
    simp only [expelPass, List.map_cons, h.1]
    simp only [expelPass] at ih
    simp [ih h.2]

theorem payoutMap_map_address (r : Addr) (ms : List Member) :
    (payoutMap r ms).map (fun m => m.address) = ms.map (fun m => m.address) := by
  simp [payoutMap]

theorem payoutMap_length (r : Addr) (ms : List Member) :
    (payoutMap r ms).length = ms.length := by
  simp [payoutMap]

theorem activeCount_payoutMap (r : Addr) (ms : List Member)
    (h : ∀ m ∈ ms, m.address = r → m.status ≠ MemberStatus.Expelled) :
    activeCount (payoutMap r ms) = activeCount ms := by
  induction ms with
  | nil => rfl
  | cons m rest ih =>
    have ih2 := ih (fun x hx => h x (List.mem_cons_of_mem m hx))
    by_cases ha : m.address = r
    · have hm := h m (List.mem_cons_self m rest) ha
      simp [payoutMap, activeCount, List.filter_cons, ha, hm] at ih2 ⊢
      exact ih2
    · simp [payoutMap, activeCount, List.filter_cons, ha] at ih2 ⊢
      by_cases hm : m.status = MemberStatus.Expelled <;> simp [hm, ih2]

theorem expelledCount_payoutMap (r : Addr) (ms : List Member)
    (h : ∀ m ∈ ms, m.address = r → m.status ≠ MemberStatus.Expelled) :
    expelledCount (payoutMap r ms) = expelledCount ms := by
  induction ms with
  | nil => rfl
  | cons m rest ih =>
    have ih2 := ih (fun x hx => h x (List.mem_cons_of_mem m hx))
    by_cases ha : m.address = r
    · have hm := h m (List.mem_cons_self m rest) ha
      simp [payoutMap, expelledCount, List.filter_cons, ha, hm] at ih2 ⊢
      exact ih2
    · simp [payoutMap, expelledCount, List.filter_cons, ha] at ih2 ⊢
      by_cases hm : m.status = MemberStatus.Expelled <;> simp [hm, ih2]

theorem findBeneficiary_some_mem (pos : Nat) (ms : List Member) (r : Addr)
    (h : findBeneficiary pos ms = some r) :
    ∃ m ∈ ms, m.address = r ∧ m.position = pos
      ∧ m.status = MemberStatus.Active := by
  induction ms with
  | nil => simp [findBeneficiary] at h
  | cons m rest ih =>
    simp only [findBeneficiary] at h
    cases hrest : findBeneficiary pos rest with
    | some x =>
      rw [hrest] at h
      obtain ⟨m', hm', hprop⟩ := ih (by simp [hrest, ← h])
      exact ⟨m', List.mem_cons_of_mem m hm', hprop⟩
    | none =>
      rw [hrest] at h
      by_cases hc : m.position = pos ∧ m.status = MemberStatus.Active
      · simp only [if_pos hc] at h
        exact ⟨m, List.mem_cons_self m rest, by injection h with h2; rw [← h2]; exact ⟨rfl, hc.1, hc.2⟩⟩
      · simp [if_neg hc] at h

theorem findBeneficiary_filter (pos : Nat) (p : Member → Bool) (ms : List Member)
    (h : ∀ m ∈ ms, m.position = pos → m.status = MemberStatus.Active → p m = true) :
    findBeneficiary pos (ms.filter p) = findBeneficiary pos ms := by
  induction ms with
  | nil => rfl
  | cons m rest ih =>
    have ih2 := ih (fun x hx => h x (List.mem_cons_of_mem m hx))
    by_cases hp : p m = true
    · simp only [List.filter_cons, hp, if_pos]
      simp only [findBeneficiary, ih2]
    · have hc : ¬(m.position = pos ∧ m.status = MemberStatus.Active) := by
        rintro ⟨h1, h2⟩
        exact hp (h m (List.mem_cons_self m rest) h1 h2)
      have hfc : List.filter p (m :: rest) = List.filter p rest := by
        simp [List.filter_cons, hp]
      rw [hfc, ih2]
      cases hr2 : findBeneficiary pos rest with
      | some x => simp [findBeneficiary, hr2]
      | none => simp [findBeneficiary, hr2, hc]

theorem expelScan_ok (a : Addr) (ms : List Member) (r : List Member)
    (f hr : Bool) (h : expelScan a ms = .ok (r, f, hr)) :
    r = ms.map (fun m =>
          if m.address = a then { m with status := MemberStatus.Expelled } else m)
      ∧ f = ms.any (fun m => decide (m.address = a)) := by
  induction ms generalizing r f hr with
  | nil =>
    simp only [expelScan, Except.ok.injEq, Prod.mk.injEq] at h
    simp [← h.1, ← h.2.1]
  | cons m rest ih =>
    simp only [expelScan] at h
    by_cases ha : m.address = a
    · simp only [if_pos ha] at h
      by_cases h1 : m.status = MemberStatus.Expelled
      · simp [h1] at h
      · simp only [if_neg h1] at h
        by_cases h2 : m.has_deposited = true
        · simp [h2] at h
        · rw [if_neg h2] at h
          cases hrest : expelScan a rest with
          | error e => rw [hrest] at h; simp at h
          | ok out =>
            obtain ⟨r', f', hr'⟩ := out
            rw [hrest] at h
            simp only [Except.ok.injEq, Prod.mk.injEq] at h
            obtain ⟨ih1, ih2⟩ := ih r' f' hr' hrest
            obtain ⟨rfl, rfl, rfl⟩ := h
            simp [ha, ih1, ih2]
    · simp only [if_neg ha] at h
      cases hrest : expelScan a rest with
      | error e => rw [hrest] at h; simp at h
      | ok out =>
        obtain ⟨r', f', hr'⟩ := out
        rw [hrest] at h
        simp only [Except.ok.injEq, Prod.mk.injEq] at h
        obtain ⟨ih1, ih2⟩ := ih r' f' hr' hrest
        obtain ⟨rfl, rfl, rfl⟩ := h
        simp [ha, ih1, ih2]

theorem expelScan_hadReceived (a : Addr) (ms : List Member) (r : List Member)
    (f hr : Bool) (hnd : (ms.map (fun m => m.address)).Nodup)
    (h : expelScan a ms = .ok (r, f, hr))
    (m : Member) (hm : m ∈ ms) (ha : m.address = a) :
    hr = decide (m.status = MemberStatus.Received)
      ∧ m.status ≠ MemberStatus.Expelled ∧ m.has_deposited = false := by
  induction ms generalizing r f hr with
  | nil => simp at hm
  | cons m0 rest ih =>
    simp only [List.map_cons, List.nodup_cons] at hnd
    simp only [expelScan] at h
    by_cases ha0 : m0.address = a
    · have hmm : m = m0 := by
        rcases List.mem_cons.mp hm with h' | h'
        · exact h'
        · exfalso
          apply hnd.1
          rw [ha0, ← ha]
          exact List.mem_map_of_mem (fun m => m.address) h'
      subst hmm
      simp only [if_pos ha0] at h
      by_cases h1 : m.status = MemberStatus.Expelled
      · simp [h1] at h
      · simp only [if_neg h1] at h
        by_cases h2 : m.has_deposited = true
        · simp [h2] at h
        · rw [if_neg h2] at h
          cases hrest : expelScan a rest with
          | error e => rw [hrest] at h; simp at h
          | ok out =>
            obtain ⟨r', f', hr'⟩ := out
            rw [hrest] at h
            simp only [Except.ok.injEq, Prod.mk.injEq] at h
            have hf' : f' = rest.any (fun x => decide (x.address = a)) :=
              (expelScan_ok a rest r' f' hr' hrest).2
            have hnone : rest.any (fun x => decide (x.address = a)) = false := by
              simp only [List.any_eq_false]
              intro x hx
              simp only [decide_eq_true_eq]
              intro hxa
              apply hnd.1
              rw [ha0, ← hxa]
              exact List.mem_map_of_mem (fun m => m.address) hx
            rw [hnone] at hf'
            refine ⟨?_, h1, by simpa using h2⟩
            rw [← h.2.2, hf']
            simp
    · have hmm : m ∈ rest := by
        rcases List.mem_cons.mp hm with h' | h'
        · exact absurd (h' ▸ ha) ha0
        · exact h'
      simp only [if_neg ha0] at h
      cases hrest : expelScan a rest with
      | error e => rw [hrest] at h; simp at h
      | ok out =>
        obtain ⟨r', f', hr'⟩ := out
        rw [hrest] at h
        simp only [Except.ok.injEq, Prod.mk.injEq] at h
        have := ih r' f' hr' hnd.2 hrest hmm
        rw [← h.2.2]
        exact this

theorem findMemberIdx_ok_some (a : Addr) (ms : List Member) (i : Nat) (m : Member)
    (h : findMemberIdx a ms = .ok (some (i, m))) :
    ∃ hlt : i < ms.length, ms[i] = m ∧ m.address = a
      ∧ m.status ≠ MemberStatus.Expelled ∧ m.has_deposited = false := by
  induction ms generalizing i with
  | nil => simp [findMemberIdx] at h
  | cons m0 rest ih =>
    simp only [findMemberIdx] at h
    by_cases ha0 : m0.address = a
    · simp only [if_pos ha0] at h
      by_cases h1 : m0.status = MemberStatus.Expelled
      · simp [h1] at h
      · simp only [if_neg h1] at h
        by_cases h2 : m0.has_deposited = true
        · simp [h2] at h
        · rw [if_neg h2] at h
          simp only [Except.ok.injEq, Option.some.injEq, Prod.mk.injEq] at h
          obtain ⟨hi, hm⟩ := h
          subst hi
          exact ⟨by simp, by simp [← hm], by rw [← hm]; exact ha0,
                 by rw [← hm]; exact h1, by rw [← hm]; simpa using h2⟩
    · simp only [if_neg ha0] at h
      cases hrest : findMemberIdx a rest with
      | error e => rw [hrest] at h; simp at h
      | ok out =>
        cases out with
        | none => rw [hrest] at h; simp at h
        | some p =>
          obtain ⟨i', m'⟩ := p
          rw [hrest] at h
          simp only [Except.ok.injEq, Option.some.injEq, Prod.mk.injEq] at h
          obtain ⟨hi, hm⟩ := h
          subst hm
          obtain ⟨hlt, hprop⟩ := ih i' hrest
          have hlt2 : i < (m0 :: rest).length := by simp; omega
          refine ⟨hlt2, ?_⟩
          have hgo : (m0 :: rest)[i] = rest[i'] := by
            subst hi; simp
          rw [hgo]
          exact hprop

theorem findMemberIdx_ok_none (a : Addr) (ms : List Member)
    (h : findMemberIdx a ms = .ok none) :
    ∀ m ∈ ms, m.address ≠ a := by
  induction ms with
  | nil => simp
  | cons m0 rest ih =>
    simp only [findMemberIdx] at h
    by_cases ha0 : m0.address = a
    · simp only [if_pos ha0] at h
      by_cases h1 : m0.status = MemberStatus.Expelled
      · simp [h1] at h
      · simp only [if_neg h1] at h
        by_cases h2 : m0.has_deposited = true
        · simp [h2] at h
        · simp [h2] at h
    · simp only [if_neg ha0] at h
      intro m hm
      rcases List.mem_cons.mp hm with h' | h'
      · rw [h']; exact ha0
      · cases hrest : findMemberIdx a rest with
        | error e => rw [hrest] at h; simp at h
        | ok out =>
          cases out with
          | none => exact ih hrest m h'
          | some p => rw [hrest] at h; rcases p with ⟨i, x⟩; simp at h

theorem filter_length_eq_iff {α : Type} (p : α → Bool) (l : List α) :
    (l.filter p).length = l.length ↔ ∀ x ∈ l, p x = true := by
  constructor
  · intro h
    have heq : l.filter p = l := (l.filter_sublist).eq_of_length h
    intro x hx
    exact List.of_mem_filter (heq ▸ hx)
  · intro h
    rw [List.filter_eq_self.mpr h]

theorem remainingPreview_false (ms : List Member) :
    remainingPreview false ms
      = ms.filter (fun m => decide (m.status ≠ MemberStatus.Expelled)) := by
  apply List.filter_congr
  intro m _
  simp

theorem remainingPreview_true (ms : List Member) :
    remainingPreview true ms
      = ms.filter (fun m =>
          decide (m.status ≠ MemberStatus.Expelled) && m.has_deposited) := by
  apply List.filter_congr
  intro m _
  simp

theorem expelCountPreview_false (ms : List Member) :
    expelCountPreview false ms = 0 := by
  simp only [expelCountPreview]
  have : ms.filter (fun m =>
      decide (m.status ≠ MemberStatus.Expelled) && (false && !m.has_deposited))
        = ms.filter (fun _ => false) :=
    List.filter_congr (fun m _ => by simp)
  simp [this]

theorem expelCountPreview_true (ms : List Member) :
    expelCountPreview true ms = (ms.filter delinquent).length := rfl

theorem noDelinquent_filter (ms : List Member) (h : expelledAnyB ms = false) :
    ms.filter (fun m =>
        decide (m.status ≠ MemberStatus.Expelled) && m.has_deposited)
      = ms.filter (fun m => decide (m.status ≠ MemberStatus.Expelled)) := by
  apply List.filter_congr
  intro m hm
  simp only [expelledAnyB, List.any_eq_false] at h
  have := h m hm
  simp only [delinquent] at this
  by_cases hs : m.status = MemberStatus.Expelled
  · simp [hs]
  · simp [hs] at this ⊢
    exact this

theorem tanda_eta (t : Tanda) :
    ({ t with total_cycles := t.total_cycles } : Tanda) = t :=
  rfl

theorem renumber_address (ms : List Member) :
    (renumber ms).map (fun m => m.address) = ms.map (fun m => m.address) :=
  renumberGo_address 0 ms

theorem expelledAnyB_true_iff (ms : List Member) :
    expelledAnyB ms = true ↔ ∃ m ∈ ms, delinquent m = true := by
  simp [expelledAnyB, List.any_eq_true]

theorem canExpelMember_iff (a : Addr) (ms : List Member)
    (hnd : (ms.map (fun m => m.address)).Nodup) :
    canExpelMember a ms = true
      ↔ ∃ m ∈ ms, m.address = a ∧ m.status ≠ MemberStatus.Expelled
          ∧ m.has_deposited = false := by
  induction ms with
  | nil => simp [canExpelMember]
  | cons m0 rest ih =>
    simp only [List.map_cons, List.nodup_cons] at hnd
    by_cases ha0 : m0.address = a
    · simp only [canExpelMember, if_pos ha0]
      constructor
      · intro h
        simp only [Bool.and_eq_true, decide_eq_true_eq, Bool.not_eq_true'] at h
        exact ⟨m0, List.mem_cons_self m0 rest, ha0, h.1, h.2⟩
      · rintro ⟨m, hm, hma, hms, hmd⟩
        rcases List.mem_cons.mp hm with h' | h'
        · subst h'
          simp [hms, hmd]
        · exfalso
          apply hnd.1
          rw [ha0, ← hma]
          exact List.mem_map_of_mem (fun m => m.address) h'
    · simp only [canExpelMember, if_neg ha0]
      rw [ih hnd.2]
      constructor
      · rintro ⟨m, hm, hprop⟩
        exact ⟨m, List.mem_cons_of_mem m0 hm, hprop⟩
      · rintro ⟨m, hm, hprop⟩
        rcases List.mem_cons.mp hm with h' | h'
        · exact absurd (h' ▸ hprop.1) ha0
        · exact ⟨m, h', hprop⟩

-- ==================== CONCRETE SCENARIO STATES ====================

/-- Transfer oracle that always succeeds. -/
def xfAll : XferOk := fun _ _ _ => true

/-- A concrete configuration: pool address 100, commission sink 101, 50 bps. -/
def cfgW : Cfg := ⟨100, 101, 50⟩

/-- The tanda record `create_tanda` persists for creator 1, amount 100,
max_members 3, at time 0. -/
def tFormingW : Tanda :=
  ⟨1, 0, 1, 100, 3, TandaStatus.Forming, 0, 0, 0, 0, 0⟩

/-- The store `create_tanda` persists (creator is member 0). -/
def stCreated : St :=
  ⟨some tFormingW, some [⟨1, MemberStatus.Active, 0, false, 0⟩]⟩

/-- Address 2 joins while Forming. -/
def stJoined : St := (join_tanda 0 2 stCreated).st

/-- The creator starts the tanda at time 0: Active, cycle 1, total 2. -/
def stActive : St := (start_tanda 0 1 stJoined).st

/-- The tanda record held in `stActive`. -/
def tActiveW : Tanda :=
  ⟨1, 0, 1, 100, 3, TandaStatus.Active, 1, 2, 0, 0, 0⟩

/-- Member 1 deposits for cycle 1. -/
def stDeposited : St := (deposit cfgW xfAll 1 stActive).st

/-- Result of expelling the delinquent member 2 exactly at the deadline. -/
def expelAtDeadline : OpOut := expel_delinquent 518400 2 stDeposited

/-- A three-member Active tanda in cycle 2: member 1 already received,
member 2 is delinquent, member 3 deposited. -/
def tC3 : Tanda :=
  ⟨3, 0, 1, 100, 12, TandaStatus.Active, 2, 3, 0, 0, 0⟩

/-- Store for `tC3`. -/
def stC3 : St :=
  ⟨some tC3,
   some [⟨1, MemberStatus.Received, 0, true, 0⟩,
         ⟨2, MemberStatus.Active, 1, false, 0⟩,
         ⟨3, MemberStatus.Active, 2, true, 0⟩]⟩

-- ==================== CLAIMS ====================

/-- C10: for a tanda id that was never created, `get_tanda`, `deposit`,
`trigger_payout`, `expel_delinquent` and `advance` all fail with the
"tanda not found" error, while `get_members` returns the empty roster and
`all_deposited` returns true vacuously. -/
theorem C10_missing_tanda_behaviour :
    get_tanda ⟨none, none⟩ = .error Err.tandaNotFound
    ∧ (∀ cfg xf user,
        (deposit cfg xf user ⟨none, none⟩).err = some Err.tandaNotFound)
    ∧ (∀ cfg xf now,
        (trigger_payout cfg xf now ⟨none, none⟩).err = some Err.tandaNotFound)
    ∧ (∀ now target,
        (expel_delinquent now target ⟨none, none⟩).err = some Err.tandaNotFound)
    ∧ (∀ cfg xf now,
        (advance cfg xf now ⟨none, none⟩).err = some Err.tandaNotFound)
    ∧ get_members ⟨none, none⟩ = []
    ∧ all_deposited ⟨none, none⟩ = true :=
  ⟨rfl, fun _ _ _ => rfl, fun _ _ _ => rfl, fun _ _ => rfl, fun _ _ _ => rfl,
   rfl, rfl⟩

/-- C8: `can_expel` is a pure predicate (it only computes a `Bool`; the
definition persists no store) and, for an existing tanda whose roster has
pairwise-distinct addresses, it answers `true` exactly when the tanda is
Active, the 6-day deadline since `last_payout_at` has been reached, and the
queried address belongs to a non-Expelled member who has not deposited. -/
theorem C8_can_expel_iff (now : Nat) (a : Addr) (s : St) (t : Tanda)
    (ht : s.tanda = some t)
    (hnd : ((getMembers s).map (fun m => m.address)).Nodup) :
    can_expel now a s = .ok true
      ↔ (t.status = TandaStatus.Active
         ∧ now ≥ t.last_payout_at + delinquencySeconds
         ∧ ∃ m ∈ getMembers s, m.address = a
             ∧ m.status ≠ MemberStatus.Expelled
             ∧ m.has_deposited = false) := by
  simp only [can_expel, ht]
  by_cases h1 : t.status ≠ TandaStatus.Active
  · simp [h1]
  · rw [not_not] at h1
    simp only [h1]
    by_cases h2 : now < t.last_payout_at + delinquencySeconds
    · simp [h2]
    · have h2' : now ≥ t.last_payout_at + delinquencySeconds := by omega
      simp only [if_neg (by simp : ¬(TandaStatus.Active ≠ TandaStatus.Active)),
                 if_neg h2]
      rw [show (Except.ok (canExpelMember a (getMembers s))
            = (Except.ok true : Except Err Bool))
          ↔ canExpelMember a (getMembers s) = true by simp]
      rw [canExpelMember_iff a (getMembers s) hnd]
      simp [h2']

/-- Witness for C8 at the concrete two-member Active tanda: member 2 has not
deposited and the deadline has been reached. -/
theorem C8_can_expel_iff_witness :
    stActive.tanda = some tActiveW
    ∧ ((getMembers stActive).map (fun m => m.address)).Nodup
    ∧ (can_expel 518400 2 stActive = .ok true
        ↔ (tActiveW.status = TandaStatus.Active
           ∧ 518400 ≥ tActiveW.last_payout_at + delinquencySeconds
           ∧ ∃ m ∈ getMembers stActive, m.address = 2
               ∧ m.status ≠ MemberStatus.Expelled
               ∧ m.has_deposited = false)) :=
  ⟨by decide, by decide,
   C8_can_expel_iff 518400 2 stActive tActiveW (by decide) (by decide)⟩

/-- C7: a successful `deposit` charges commission
`floor(amount * commission_bps / 10000)` (the Rust `i128` division truncates,
which coincides with floor for the non-negative amounts the contract
enforces), sets `has_deposited := true` for the payer's record only, and
leaves every other member record and the whole Tanda record unchanged. -/
theorem C7_deposit_frame (cfg : Cfg) (xf : XferOk) (user : Addr) (s : St)
    (t : Tanda) (ht : s.tanda = some t)
    (hsucc : (deposit cfg xf user s).err = none) :
    ∃ i m, (getMembers s)[i]? = some m ∧ m.address = user
      ∧ (deposit cfg xf user s).st.tanda = s.tanda
      ∧ (deposit cfg xf user s).st.members
          = some ((getMembers s).set i { m with has_deposited := true })
      ∧ (∀ j, j ≠ i →
          ((getMembers s).set i { m with has_deposited := true })[j]?
            = (getMembers s)[j]?)
      ∧ (deposit cfg xf user s).transfers
          = ⟨user, cfg.contractAddr, t.amount⟩ ::
            (if Int.tdiv (t.amount * (cfg.commission_bps : Int)) 10000 > 0 then
              [⟨user, cfg.commissionAddr,
                Int.tdiv (t.amount * (cfg.commission_bps : Int)) 10000⟩]
             else [])
      ∧ (0 ≤ t.amount →
          Int.tdiv (t.amount * (cfg.commission_bps : Int)) 10000
            = Int.fdiv (t.amount * (cfg.commission_bps : Int)) 10000) := by
  have hfloor : 0 ≤ t.amount →
      Int.tdiv (t.amount * (cfg.commission_bps : Int)) 10000
        = Int.fdiv (t.amount * (cfg.commission_bps : Int)) 10000 := by
    intro hnn
    have hn : (0 : Int) ≤ t.amount * (cfg.commission_bps : Int) :=
      mul_nonneg hnn (Int.natCast_nonneg _)
    rw [Int.tdiv_eq_ediv hn (by norm_num), Int.fdiv_eq_ediv _ (by norm_num)]
  simp only [deposit, ht] at hsucc ⊢
  by_cases h1 : t.status ≠ TandaStatus.Active
  · simp [h1] at hsucc
  · simp only [if_neg h1] at hsucc ⊢
    cases hf : findMemberIdx user (getMembers s) with
    | error e => simp [hf] at hsucc
    | ok o =>
      cases o with
      | none => simp [hf] at hsucc
      | some p =>
        obtain ⟨i0, m0⟩ := p
        obtain ⟨hlt, hget, haddr, -, -⟩ := findMemberIdx_ok_some user _ i0 m0 hf
        by_cases h2 : xf user cfg.contractAddr t.amount = true
        · by_cases h3 :
            Int.tdiv (t.amount * (cfg.commission_bps : Int)) 10000 > 0
          · by_cases h4 : xf user cfg.commissionAddr
                (Int.tdiv (t.amount * (cfg.commission_bps : Int)) 10000) = true
            · refine ⟨i0, m0, ?_, haddr, ?_, ?_, ?_, ?_, hfloor⟩
              · rw [List.getElem?_eq_getElem hlt, hget]
              · simp [hf, h2, h3, h4]
              · simp [hf, h2, h3, h4]
              · intro j hj
                exact List.getElem?_set_ne (fun h => hj h.symm)
              · simp [hf, h2, h3, h4]
            · simp [hf, h2, h3, h4] at hsucc
          · refine ⟨i0, m0, ?_, haddr, ?_, ?_, ?_, ?_, hfloor⟩
            · rw [List.getElem?_eq_getElem hlt, hget]
            · simp [hf, h2, h3]
            · simp [hf, h2, h3]
            · intro j hj
              exact List.getElem?_set_ne (fun h => hj h.symm)
            · simp [hf, h2, h3]
        · simp [hf, h2] at hsucc

/-- Witness for C7: member 1 deposits on the concrete Active tanda. -/
theorem C7_deposit_frame_witness :
    stActive.tanda = some tActiveW
    ∧ (deposit cfgW xfAll 1 stActive).err = none
    ∧ ∃ i m, (getMembers stActive)[i]? = some m ∧ m.address = 1
      ∧ (deposit cfgW xfAll 1 stActive).st.tanda = stActive.tanda
      ∧ (deposit cfgW xfAll 1 stActive).st.members
          = some ((getMembers stActive).set i { m with has_deposited := true })
      ∧ (∀ j, j ≠ i →
          ((getMembers stActive).set i { m with has_deposited := true })[j]?
            = (getMembers stActive)[j]?)
      ∧ (deposit cfgW xfAll 1 stActive).transfers
          = ⟨1, cfgW.contractAddr, tActiveW.amount⟩ ::
            (if Int.tdiv (tActiveW.amount * (cfgW.commission_bps : Int)) 10000 > 0 then
              [⟨1, cfgW.commissionAddr,
                Int.tdiv (tActiveW.amount * (cfgW.commission_bps : Int)) 10000⟩]
             else [])
      ∧ (0 ≤ tActiveW.amount →
          Int.tdiv (tActiveW.amount * (cfgW.commission_bps : Int)) 10000
            = Int.fdiv (tActiveW.amount * (cfgW.commission_bps : Int)) 10000) :=
  ⟨by decide, by decide,
   C7_deposit_frame cfgW xfAll 1 stActive tActiveW (by decide) (by decide)⟩

theorem join_tanda_atomic (now : Nat) (u : Addr) (s : St) (e : Err)
    (h : (join_tanda now u s).err = some e) : (join_tanda now u s).st = s := by
  cases hs : s.tanda with
  | none => simp [join_tanda, hs]
  | some t =>
    simp only [join_tanda, hs] at h ⊢
    by_cases h1 : t.status ≠ TandaStatus.Forming
    · simp [h1]
    · simp only [if_neg h1] at h ⊢
      by_cases h2 : (getMembers s).length ≥ t.max_members
      · simp [h2]
      · simp only [if_neg h2] at h ⊢
        by_cases h3 : (getMembers s).any (fun m => m.address = u) = true
        · simp [h3]
        · simp [h3] at h

theorem start_tanda_atomic (now : Nat) (caller : Addr) (s : St) (e : Err)
    (h : (start_tanda now caller s).err = some e) :
    (start_tanda now caller s).st = s := by
  cases hs : s.tanda with
  | none => simp [start_tanda, hs]
  | some t =>
    simp only [start_tanda, hs] at h ⊢
    by_cases h1 : t.creator ≠ caller
    · simp [h1]
    · simp only [if_neg h1] at h ⊢
      by_cases h2 : t.status ≠ TandaStatus.Forming
      · simp [h2]
      · simp only [if_neg h2] at h ⊢
        by_cases h3 : (getMembers s).length < 2
        · simp [h3]
        · simp [h3] at h

theorem cancel_tanda_atomic (caller : Addr) (s : St) (e : Err)
    (h : (cancel_tanda caller s).err = some e) :
    (cancel_tanda caller s).st = s := by
  cases hs : s.tanda with
  | none => simp [cancel_tanda, hs]
  | some t =>
    simp only [cancel_tanda, hs] at h ⊢
    by_cases h1 : t.creator ≠ caller
    · simp [h1]
    · simp only [if_neg h1] at h ⊢
      by_cases h2 : t.status ≠ TandaStatus.Forming
      · simp [h2]
      · simp [h2] at h

theorem deposit_atomic (cfg : Cfg) (xf : XferOk) (u : Addr) (s : St) (e : Err)
    (h : (deposit cfg xf u s).err = some e) : (deposit cfg xf u s).st = s := by
  cases hs : s.tanda with
  | none => simp [deposit, hs]
  | some t =>
    simp only [deposit, hs] at h ⊢
    by_cases h1 : t.status ≠ TandaStatus.Active
    · simp [h1]
    · simp only [if_neg h1] at h ⊢
      cases hf : findMemberIdx u (getMembers s) with
      | error e2 => simp [hf]
      | ok o =>
        cases o with
        | none => simp [hf]
        | some p =>
          obtain ⟨i0, m0⟩ := p
          by_cases h2 : xf u cfg.contractAddr t.amount = true
          · by_cases h3 :
              Int.tdiv (t.amount * (cfg.commission_bps : Int)) 10000 > 0
            · by_cases h4 : xf u cfg.commissionAddr
                  (Int.tdiv (t.amount * (cfg.commission_bps : Int)) 10000)
                    = true
              · simp [hf, h2, h3, h4] at h
              · simp [hf, h2, h3, h4]
            · simp [hf, h2, h3] at h
          · simp [hf, h2]

theorem trigger_payout_atomic (cfg : Cfg) (xf : XferOk) (now : Nat) (s : St)
    (e : Err) (h : (trigger_payout cfg xf now s).err = some e) :
    (trigger_payout cfg xf now s).st = s := by
  cases hs : s.tanda with
  | none => simp [trigger_payout, hs]
  | some t =>
    simp only [trigger_payout, hs] at h ⊢
    by_cases h1 : t.status ≠ TandaStatus.Active
    · simp [h1]
    · simp only [if_neg h1] at h ⊢
      by_cases h2 : allDepositedB (getMembers s) = true
      · simp only [h2] at h ⊢
        cases hb : findBeneficiary (t.current_cycle - 1) (getMembers s) with
        | none => simp [hb]
        | some r =>
          by_cases h3 :
            xf cfg.contractAddr r (t.amount * (activeCount (getMembers s) : Int))
              = true
          · simp [hb, h3] at h
          · simp [hb, h3]
      · simp [h2]

theorem expel_delinquent_atomic (now : Nat) (target : Addr) (s : St) (e : Err)
    (h : (expel_delinquent now target s).err = some e) :
    (expel_delinquent now target s).st = s := by
  cases hs : s.tanda with
  | none => simp [expel_delinquent, hs]
  | some t =>
    simp only [expel_delinquent, hs] at h ⊢
    by_cases h1 : t.status ≠ TandaStatus.Active
    · simp [h1]
    · simp only [if_neg h1] at h ⊢
      by_cases h2 : now < t.last_payout_at + delinquencySeconds
      · simp [h2]
      · simp only [if_neg h2] at h ⊢
        cases hsc : expelScan target (getMembers s) with
        | error e2 => simp [hsc]
        | ok out =>
          obtain ⟨ms1, found, hr⟩ := out
          by_cases h3 : found = true
          · simp [hsc, h3] at h
          · simp [hsc, h3]

theorem advance_atomic (cfg : Cfg) (xf : XferOk) (now : Nat) (s : St) (e : Err)
    (h : (advance cfg xf now s).err = some e) : (advance cfg xf now s).st = s := by
  cases hs : s.tanda with
  | none => simp [advance, hs]
  | some t =>
    simp only [advance, hs] at h ⊢
    by_cases h1 : t.status ≠ TandaStatus.Active
    · simp [h1]
    · simp only [if_neg h1] at h ⊢
      by_cases hac :
        activeCount (advMembers1
          (decide (now ≥ t.last_payout_at + delinquencySeconds))
          (getMembers s)) ≤ 1
      · simp [hac] at h
      · simp only [if_neg hac] at h ⊢
        by_cases had :
          allDepositedB (advMembers1
            (decide (now ≥ t.last_payout_at + delinquencySeconds))
            (getMembers s)) = true
        · simp only [had] at h ⊢
          cases hb : findBeneficiary (t.current_cycle - 1)
              (advMembers1
                (decide (now ≥ t.last_payout_at + delinquencySeconds))
                (getMembers s)) with
          | none => simp [hb]
          | some r =>
            by_cases h3 : xf cfg.contractAddr r
                (t.amount * (activeCount (advMembers1
                  (decide (now ≥ t.last_payout_at + delinquencySeconds))
                  (getMembers s)) : Int)) = true
            · simp [hb, h3] at h
            · simp [hb, h3]
        · simp [had] at h

/-- C9: atomicity of every operation — whenever `join_tanda`, `start_tanda`,
`deposit`, `trigger_payout`, `expel_delinquent`, `advance` or `cancel_tanda`
aborts (precondition violation or failed external transfer), the persisted
Tanda record and Membership roster are exactly the pre-call ones. In the
source every storage write happens after the last possible panic, and a
Soroban panic reverts the invocation, so no error path persists a partial
mutation. -/
theorem C9_error_atomicity :
    (∀ now u s e, (join_tanda now u s).err = some e →
        (join_tanda now u s).st = s)
    ∧ (∀ now c s e, (start_tanda now c s).err = some e →
        (start_tanda now c s).st = s)
    ∧ (∀ cfg xf u s e, (deposit cfg xf u s).err = some e →
        (deposit cfg xf u s).st = s)
    ∧ (∀ cfg xf now s e, (trigger_payout cfg xf now s).err = some e →
        (trigger_payout cfg xf now s).st = s)
    ∧ (∀ now a s e, (expel_delinquent now a s).err = some e →
        (expel_delinquent now a s).st = s)
    ∧ (∀ cfg xf now s e, (advance cfg xf now s).err = some e →
        (advance cfg xf now s).st = s)
    ∧ (∀ c s e, (cancel_tanda c s).err = some e → (cancel_tanda c s).st = s) :=
  ⟨fun now u s e => join_tanda_atomic now u s e,
   fun now c s e => start_tanda_atomic now c s e,
   fun cfg xf u s e => deposit_atomic cfg xf u s e,
   fun cfg xf now s e => trigger_payout_atomic cfg xf now s e,
   fun now a s e => expel_delinquent_atomic now a s e,
   fun cfg xf now s e => advance_atomic cfg xf now s e,
   fun c s e => cancel_tanda_atomic c s e⟩

/-- Witness for C9: each operation applied where it fails (missing tanda,
wrong status, failing transfer oracle) leaves the store untouched. -/
theorem C9_error_atomicity_witness :
    ((join_tanda 0 7 (⟨none, none⟩ : St)).err = some Err.tandaNotFound
      ∧ (join_tanda 0 7 (⟨none, none⟩ : St)).st = ⟨none, none⟩)
    ∧ ((start_tanda 0 2 stActive).err = some Err.onlyCreatorStart
      ∧ (start_tanda 0 2 stActive).st = stActive)
    ∧ ((deposit cfgW (fun _ _ _ => false) 1 stActive).err
          = some Err.transferFailed
      ∧ (deposit cfgW (fun _ _ _ => false) 1 stActive).st = stActive)
    ∧ ((trigger_payout cfgW xfAll 0 stActive).err = some Err.notAllDeposited
      ∧ (trigger_payout cfgW xfAll 0 stActive).st = stActive)
    ∧ ((expel_delinquent 0 2 stActive).err = some Err.delinquencyNotPassed
      ∧ (expel_delinquent 0 2 stActive).st = stActive)
    ∧ ((advance cfgW xfAll 518400 stCreated).err = some Err.notActive
      ∧ (advance cfgW xfAll 518400 stCreated).st = stCreated)
    ∧ ((cancel_tanda 1 stActive).err = some Err.onlyFormingCancel
      ∧ (cancel_tanda 1 stActive).st = stActive) :=
  ⟨⟨by decide, C9_error_atomicity.1 0 7 ⟨none, none⟩ Err.tandaNotFound
      (by decide)⟩,
   ⟨by decide, C9_error_atomicity.2.1 0 2 stActive Err.onlyCreatorStart
      (by decide)⟩,
   ⟨by decide, C9_error_atomicity.2.2.1 cfgW (fun _ _ _ => false) 1 stActive
      Err.transferFailed (by decide)⟩,
   ⟨by decide, C9_error_atomicity.2.2.2.1 cfgW xfAll 0 stActive
      Err.notAllDeposited (by decide)⟩,
   ⟨by decide, C9_error_atomicity.2.2.2.2.1 0 2 stActive
      Err.delinquencyNotPassed (by decide)⟩,
   ⟨by decide, C9_error_atomicity.2.2.2.2.2.1 cfgW xfAll 518400 stCreated
      Err.notActive (by decide)⟩,
   ⟨by decide, C9_error_atomicity.2.2.2.2.2.2 1 stActive Err.onlyFormingCancel
      (by decide)⟩⟩

theorem mem_addr_unique (ms : List Member)
    (hnd : (ms.map (fun m => m.address)).Nodup)
    (m1 m2 : Member) (h1 : m1 ∈ ms) (h2 : m2 ∈ ms)
    (heq : m1.address = m2.address) : m1 = m2 := by
  induction ms with
  | nil => simp at h1
  | cons m0 rest ih =>
    simp only [List.map_cons, List.nodup_cons] at hnd
    rcases List.mem_cons.mp h1 with e1 | e1 <;>
      rcases List.mem_cons.mp h2 with e2 | e2
    · rw [e1, e2]
    · exfalso
      apply hnd.1
      rw [← e1, heq]
      exact List.mem_map_of_mem (fun m => m.address) e2
    · exfalso
      apply hnd.1
      rw [← e2, ← heq]
      exact List.mem_map_of_mem (fun m => m.address) e1
    · exact ih hnd.2 e1 e2

theorem activePositions_payoutMap (r : Addr) (ms : List Member)
    (h : ∀ m ∈ ms, m.address = r → m.status ≠ MemberStatus.Expelled) :
    activePositions (payoutMap r ms) = activePositions ms := by
  induction ms with
  | nil => rfl
  | cons m rest ih =>
    have ih2 := ih (fun x hx => h x (List.mem_cons_of_mem m hx))
    by_cases ha : m.address = r
    · have hm := h m (List.mem_cons_self m rest) ha
      simp [payoutMap, activePositions, List.filter_cons, ha, hm] at ih2 ⊢
      exact ih2
    · simp [payoutMap, activePositions, List.filter_cons, ha] at ih2 ⊢
      by_cases hm : m.status = MemberStatus.Expelled <;> simp [hm, ih2]

theorem advMembers1_map_address (dl : Bool) (ms : List Member) :
    (advMembers1 dl ms).map (fun m => m.address)
      = ms.map (fun m => m.address) := by
  simp only [advMembers1]
  split
  · rw [renumber_address, expelPass_map_address]
  · rfl

theorem join_tanda_spec (now : Nat) (u : Addr) (s : St) (t : Tanda)
    (ht : s.tanda = some t) (h1 : t.status = TandaStatus.Forming)
    (h2 : ¬ (getMembers s).length ≥ t.max_members)
    (h3 : (getMembers s).any (fun m => m.address = u) = false) :
    join_tanda now u s
      = ⟨⟨s.tanda, some (getMembers s
          ++ [⟨u, MemberStatus.Active, (getMembers s).length, false, now⟩])⟩,
         [], none⟩ := by
  simp only [join_tanda, ht]
  rw [if_neg (not_not_intro h1), if_neg h2, if_neg (by simp [h3])]

theorem expel_delinquent_spec (now : Nat) (a : Addr) (s : St) (t : Tanda)
    (ms1 : List Member) (hr : Bool)
    (ht : s.tanda = some t) (h1 : t.status = TandaStatus.Active)
    (h2 : ¬ now < t.last_payout_at + delinquencySeconds)
    (hsc : expelScan a (getMembers s) = .ok (ms1, true, hr)) :
    expel_delinquent now a s
      = ⟨⟨some { t with total_cycles :=
            if hr then t.total_cycles else t.total_cycles - 1 },
          some (renumber ms1)⟩, [], none⟩ := by
  simp only [expel_delinquent, ht]
  rw [if_neg (not_not_intro h1), if_neg h2]
  simp only [hsc]
  rw [if_neg (by simp)]

theorem trigger_payout_spec (cfg : Cfg) (xf : XferOk) (now : Nat) (s : St)
    (t : Tanda) (r : Addr)
    (ht : s.tanda = some t) (h1 : t.status = TandaStatus.Active)
    (h2 : allDepositedB (getMembers s) = true)
    (hb : findBeneficiary (t.current_cycle - 1) (getMembers s) = some r)
    (h3 : xf cfg.contractAddr r
        (t.amount * (activeCount (getMembers s) : Int)) = true) :
    trigger_payout cfg xf now s
      = ⟨⟨some { t with
            current_cycle := t.current_cycle + 1,
            last_payout_at := now,
            status := if t.current_cycle + 1 > t.total_cycles
              then TandaStatus.Completed else t.status },
          some (payoutMap r (getMembers s))⟩,
         [⟨cfg.contractAddr, r, t.amount * (activeCount (getMembers s) : Int)⟩],
         none⟩ := by
  simp only [trigger_payout, ht]
  rw [if_neg (not_not_intro h1), if_neg (by simp [h2])]
  simp only [hb]
  rw [if_pos h3]

theorem advance_early_spec (cfg : Cfg) (xf : XferOk) (now : Nat) (s : St)
    (t : Tanda) (ht : s.tanda = some t) (h1 : t.status = TandaStatus.Active)
    (hac : activeCount (advMembers1
        (decide (now ≥ t.last_payout_at + delinquencySeconds))
        (getMembers s)) ≤ 1) :
    advance cfg xf now s
      = ⟨⟨some { t with
            status := TandaStatus.Completed,
            total_cycles := advTotalAfter
              (decide (now ≥ t.last_payout_at + delinquencySeconds))
              t.total_cycles (getMembers s) },
          some (advMembers1
            (decide (now ≥ t.last_payout_at + delinquencySeconds))
            (getMembers s))⟩,
         [], none,
         decide (now ≥ t.last_payout_at + delinquencySeconds)
           && expelledAnyB (getMembers s)⟩ := by
  simp only [advance, ht]
  rw [if_neg (not_not_intro h1), if_pos hac]

theorem advance_payout_spec (cfg : Cfg) (xf : XferOk) (now : Nat) (s : St)
    (t : Tanda) (r : Addr)
    (ht : s.tanda = some t) (h1 : t.status = TandaStatus.Active)
    (hac : ¬ activeCount (advMembers1
        (decide (now ≥ t.last_payout_at + delinquencySeconds))
        (getMembers s)) ≤ 1)
    (had : allDepositedB (advMembers1
        (decide (now ≥ t.last_payout_at + delinquencySeconds))
        (getMembers s)) = true)
    (hb : findBeneficiary (t.current_cycle - 1)
        (advMembers1 (decide (now ≥ t.last_payout_at + delinquencySeconds))
          (getMembers s)) = some r)
    (h3 : xf cfg.contractAddr r
        (t.amount * (activeCount (advMembers1
          (decide (now ≥ t.last_payout_at + delinquencySeconds))
          (getMembers s)) : Int)) = true) :
    advance cfg xf now s
      = ⟨⟨some { t with
            current_cycle := t.current_cycle + 1,
            last_payout_at := now,
            total_cycles := advTotalAfter
              (decide (now ≥ t.last_payout_at + delinquencySeconds))
              t.total_cycles (getMembers s),
            status := if t.current_cycle + 1 > advTotalAfter
                (decide (now ≥ t.last_payout_at + delinquencySeconds))
                t.total_cycles (getMembers s)
              then TandaStatus.Completed else t.status },
          some (payoutMap r (advMembers1
            (decide (now ≥ t.last_payout_at + delinquencySeconds))
            (getMembers s)))⟩,
         [⟨cfg.contractAddr, r,
           t.amount * (activeCount (advMembers1
             (decide (now ≥ t.last_payout_at + delinquencySeconds))
             (getMembers s)) : Int)⟩],
         none,
         (decide (now ≥ t.last_payout_at + delinquencySeconds)
            && expelledAnyB (getMembers s))
           || allDepositedB (advMembers1
                (decide (now ≥ t.last_payout_at + delinquencySeconds))
                (getMembers s))⟩ := by
  simp only [advance, ht]
  rw [if_neg (not_not_intro h1), if_neg hac, if_pos had]
  simp only [hb]
  rw [if_pos h3]

theorem advance_nopay_spec (cfg : Cfg) (xf : XferOk) (now : Nat) (s : St)
    (t : Tanda)
    (ht : s.tanda = some t) (h1 : t.status = TandaStatus.Active)
    (hac : ¬ activeCount (advMembers1
        (decide (now ≥ t.last_payout_at + delinquencySeconds))
        (getMembers s)) ≤ 1)
    (had : allDepositedB (advMembers1
        (decide (now ≥ t.last_payout_at + delinquencySeconds))
        (getMembers s)) = false) :
    advance cfg xf now s
      = ⟨⟨some { t with
            total_cycles := advTotalAfter
              (decide (now ≥ t.last_payout_at + delinquencySeconds))
              t.total_cycles (getMembers s) },
          some (advMembers1
            (decide (now ≥ t.last_payout_at + delinquencySeconds))
            (getMembers s))⟩,
         [], none,
         (decide (now ≥ t.last_payout_at + delinquencySeconds)
            && expelledAnyB (getMembers s))
           || allDepositedB (advMembers1
                (decide (now ≥ t.last_payout_at + delinquencySeconds))
                (getMembers s))⟩ := by
  simp only [advance, ht]
  rw [if_neg (not_not_intro h1), if_neg hac, if_neg (by simp [had])]

/-- C5: position density and order preservation. `renumber` always produces
positions `0, 1, ..., k-1` (in roster order) on the non-Expelled members
while changing nothing else (`memberKey` preserved pointwise, so the relative
order survives); `join_tanda` preserves density of an all-non-Expelled
Forming roster; the rosters persisted by a successful `expel_delinquent`,
and by a successful `advance` that expelled someone (given distinct
addresses), are dense. -/
theorem C5_position_density :
    (∀ ms : List Member,
      activePositions (renumber ms) = List.range (activeCount ms)
      ∧ (renumber ms).map memberKey = ms.map memberKey)
    ∧ (∀ (now : Nat) (u : Addr) (s : St) (t : Tanda),
        s.tanda = some t →
        (join_tanda now u s).err = none →
        (∀ m ∈ getMembers s, m.status ≠ MemberStatus.Expelled) →
        activePositions (getMembers s)
          = List.range (activeCount (getMembers s)) →
        t.status = TandaStatus.Forming
        ∧ activePositions (getMembers (join_tanda now u s).st)
            = List.range (activeCount (getMembers (join_tanda now u s).st)))
    ∧ (∀ (now : Nat) (a : Addr) (s : St),
        (expel_delinquent now a s).err = none →
        activePositions (getMembers (expel_delinquent now a s).st)
          = List.range (activeCount (getMembers (expel_delinquent now a s).st)))
    ∧ (∀ (cfg : Cfg) (xf : XferOk) (now : Nat) (s : St) (t : Tanda),
        s.tanda = some t →
        ((getMembers s).map (fun m => m.address)).Nodup →
        (decide (now ≥ t.last_payout_at + delinquencySeconds)
          && expelledAnyB (getMembers s)) = true →
        (advance cfg xf now s).err = none →
        activePositions (getMembers (advance cfg xf now s).st)
          = List.range
              (activeCount (getMembers (advance cfg xf now s).st))) := by
  refine ⟨fun ms => ⟨by rw [renumber_positions], renumber_map_key ms⟩,
          ?_, ?_, ?_⟩
  · -- join_tanda
    intro now u s t ht hsucc hall hdense
    by_cases h1 : t.status = TandaStatus.Forming
    case neg =>
      exfalso
      have : (join_tanda now u s).err = some Err.notAcceptingMembers := by
        simp [join_tanda, ht, h1]
      rw [this] at hsucc
      exact Option.noConfusion hsucc
    case pos =>
    by_cases h2 : (getMembers s).length ≥ t.max_members
    · exfalso
      have : (join_tanda now u s).err = some Err.tandaFull := by
        simp [join_tanda, ht, h1, h2]
      rw [this] at hsucc
      exact Option.noConfusion hsucc
    · by_cases h3 : (getMembers s).any (fun m => m.address = u) = true
      · exfalso
        have : (join_tanda now u s).err = some Err.alreadyMember := by
          simp [join_tanda, ht, h1, h2, h3]
        rw [this] at hsucc
        exact Option.noConfusion hsucc
      · have h3' : (getMembers s).any (fun m => m.address = u) = false := by
          simpa using h3
        rw [join_tanda_spec now u s t ht h1 h2 h3']
        refine ⟨h1, ?_⟩
        have hfe : (getMembers s).filter
            (fun m => decide (m.status ≠ MemberStatus.Expelled))
              = getMembers s :=
          List.filter_eq_self.mpr (fun m hm => by simp [hall m hm])
        have hmem : getMembers (⟨⟨s.tanda, some (getMembers s
            ++ [⟨u, MemberStatus.Active, (getMembers s).length, false,
                  now⟩])⟩, [], none⟩ : OpOut).st
            = getMembers s
              ++ [⟨u, MemberStatus.Active, (getMembers s).length, false,
                    now⟩] := rfl
        rw [hmem]
        have key1 : activePositions (getMembers s
            ++ [⟨u, MemberStatus.Active, (getMembers s).length, false, now⟩])
            = (getMembers s).map (fun m => m.position)
              ++ [(getMembers s).length] := by
          rw [activePositions, List.filter_append, hfe]
          simp [List.filter_cons]
        have key2 : activeCount (getMembers s
            ++ [⟨u, MemberStatus.Active, (getMembers s).length, false, now⟩])
            = (getMembers s).length + 1 := by
          rw [activeCount, List.filter_append, hfe]
          simp [List.filter_cons]
        rw [key1, key2, List.range_succ]
        rw [activePositions, activeCount, hfe] at hdense
        rw [hdense]
  · -- expel_delinquent
    intro now a s hsucc
    cases hs : s.tanda with
    | none => simp [expel_delinquent, hs] at hsucc
    | some t =>
      by_cases h1 : t.status = TandaStatus.Active
      case neg =>
        exfalso
        have : (expel_delinquent now a s).err = some Err.notActive := by
          simp [expel_delinquent, hs, h1]
        rw [this] at hsucc
        exact Option.noConfusion hsucc
      case pos =>
      by_cases h2 : now < t.last_payout_at + delinquencySeconds
      · exfalso
        have : (expel_delinquent now a s).err
            = some Err.delinquencyNotPassed := by
          simp [expel_delinquent, hs, h1, h2]
        rw [this] at hsucc
        exact Option.noConfusion hsucc
      · cases hsc : expelScan a (getMembers s) with
        | error e2 =>
          exfalso
          have : (expel_delinquent now a s).err = some e2 := by
            simp [expel_delinquent, hs, h1, h2, hsc]
          rw [this] at hsucc
          exact Option.noConfusion hsucc
        | ok out =>
          obtain ⟨ms1, found, hr⟩ := out
          by_cases hfound : found = true
          · subst hfound
            rw [expel_delinquent_spec now a s t ms1 hr hs h1 h2 hsc]
            show activePositions (renumber ms1)
              = List.range (activeCount (renumber ms1))
            rw [renumber_positions, activeCount_renumber]
          · exfalso
            have : (expel_delinquent now a s).err = some Err.memberNotFound := by
              simp [expel_delinquent, hs, h1, h2, hsc, hfound]
            rw [this] at hsucc
            exact Option.noConfusion hsucc
  · -- advance
    intro cfg xf now s t ht hnd hexp hsucc
    by_cases h1 : t.status = TandaStatus.Active
    case neg =>
      exfalso
      have : (advance cfg xf now s).err = some Err.notActive := by
        simp [advance, ht, h1]
      rw [this] at hsucc
      exact Option.noConfusion hsucc
    case pos =>
    have hms1 : advMembers1
        (decide (now ≥ t.last_payout_at + delinquencySeconds))
        (getMembers s) = renumber (expelPass (getMembers s)) := by
      simp [advMembers1, hexp]
    have hdense1 : activePositions (advMembers1
          (decide (now ≥ t.last_payout_at + delinquencySeconds))
          (getMembers s))
        = List.range (activeCount (advMembers1
            (decide (now ≥ t.last_payout_at + delinquencySeconds))
            (getMembers s))) := by
      rw [hms1, renumber_positions, activeCount_renumber]
    by_cases hac :
      activeCount (advMembers1
        (decide (now ≥ t.last_payout_at + delinquencySeconds))
        (getMembers s)) ≤ 1
    · rw [advance_early_spec cfg xf now s t ht h1 hac]
      exact hdense1
    · by_cases had :
        allDepositedB (advMembers1
          (decide (now ≥ t.last_payout_at + delinquencySeconds))
          (getMembers s)) = true
      · cases hb : findBeneficiary (t.current_cycle - 1)
            (advMembers1
              (decide (now ≥ t.last_payout_at + delinquencySeconds))
              (getMembers s)) with
        | none =>
          exfalso
          have : (advance cfg xf now s).err = some Err.beneficiaryNotFound := by
            simp [advance, ht, h1, hac, had, hb]
          rw [this] at hsucc
          exact Option.noConfusion hsucc
        | some r =>
          by_cases h3 : xf cfg.contractAddr r
              (t.amount * (activeCount (advMembers1
                (decide (now ≥ t.last_payout_at + delinquencySeconds))
                (getMembers s)) : Int)) = true
          · rw [advance_payout_spec cfg xf now s t r ht h1 hac had hb h3]
            show activePositions (payoutMap r (advMembers1
                (decide (now ≥ t.last_payout_at + delinquencySeconds))
                (getMembers s)))
              = List.range (activeCount (payoutMap r (advMembers1
                  (decide (now ≥ t.last_payout_at + delinquencySeconds))
                  (getMembers s))))
            have hnd1 : ((advMembers1
                (decide (now ≥ t.last_payout_at + delinquencySeconds))
                (getMembers s)).map (fun m => m.address)).Nodup := by
              rw [advMembers1_map_address]
              exact hnd
            obtain ⟨mb, hmb, hmba, -, hmbs⟩ :=
              findBeneficiary_some_mem _ _ _ hb
            have hsafe : ∀ m2 ∈ advMembers1
                (decide (now ≥ t.last_payout_at + delinquencySeconds))
                (getMembers s), m2.address = r →
                  m2.status ≠ MemberStatus.Expelled := by
              intro m2 hm2 ha2
              have hm2b : m2 = mb :=
                mem_addr_unique _ hnd1 m2 mb hm2 hmb (by rw [ha2, hmba])
              rw [hm2b, hmbs]
              simp
            rw [activePositions_payoutMap r _ hsafe,
                activeCount_payoutMap r _ hsafe]
            exact hdense1
          · exfalso
            have : (advance cfg xf now s).err = some Err.transferFailed := by
              simp [advance, ht, h1, hac, had, hb, h3]
            rw [this] at hsucc
            exact Option.noConfusion hsucc
      · have had' : allDepositedB (advMembers1
            (decide (now ≥ t.last_payout_at + delinquencySeconds))
            (getMembers s)) = false := by
          simpa using had
        rw [advance_nopay_spec cfg xf now s t ht h1 hac had']
        exact hdense1

/-- Witness for C5 at concrete states: joining the freshly created tanda,
expelling the delinquent member 2, and an `advance` that expels member 2 of
a three-member tanda in cycle 2. -/
theorem C5_position_density_witness :
    (stCreated.tanda = some tFormingW
      ∧ (join_tanda 0 2 stCreated).err = none
      ∧ (∀ m ∈ getMembers stCreated, m.status ≠ MemberStatus.Expelled)
      ∧ activePositions (getMembers stCreated)
          = List.range (activeCount (getMembers stCreated))
      ∧ tFormingW.status = TandaStatus.Forming
      ∧ activePositions (getMembers (join_tanda 0 2 stCreated).st)
          = List.range (activeCount (getMembers (join_tanda 0 2 stCreated).st)))
    ∧ ((expel_delinquent 518400 2 stDeposited).err = none
      ∧ activePositions (getMembers (expel_delinquent 518400 2 stDeposited).st)
          = List.range (activeCount
              (getMembers (expel_delinquent 518400 2 stDeposited).st)))
    ∧ (stC3.tanda = some tC3
      ∧ ((getMembers stC3).map (fun m => m.address)).Nodup
      ∧ (decide (518400 ≥ tC3.last_payout_at + delinquencySeconds)
          && expelledAnyB (getMembers stC3)) = true
      ∧ (advance cfgW xfAll 518400 stC3).err = none
      ∧ activePositions (getMembers (advance cfgW xfAll 518400 stC3).st)
          = List.range (activeCount
              (getMembers (advance cfgW xfAll 518400 stC3).st))) :=
  ⟨⟨by decide, by decide, by decide, by decide,
    (C5_position_density.2.1 0 2 stCreated tFormingW (by decide) (by decide)
      (by decide) (by decide)).1,
    (C5_position_density.2.1 0 2 stCreated tFormingW (by decide) (by decide)
      (by decide) (by decide)).2⟩,
   ⟨by decide,
    C5_position_density.2.2.1 518400 2 stDeposited (by decide)⟩,
   ⟨by decide, by decide, by decide, by decide,
    C5_position_density.2.2.2 cfgW xfAll 518400 stC3 tC3 (by decide)
      (by decide) (by decide) (by decide)⟩⟩

theorem exists_key_mem {l l' : List Member}
    (h : l.map memberKey = l'.map memberKey) {m : Member} (hm : m ∈ l') :
    ∃ m2 ∈ l, memberKey m2 = memberKey m := by
  have hmem : memberKey m ∈ l'.map memberKey :=
    List.mem_map_of_mem memberKey hm
  rw [← h] at hmem
  obtain ⟨m2, hm2, he⟩ := List.mem_map.mp hmem
  exact ⟨m2, hm2, he⟩

theorem memberKey_fields {m1 m2 : Member} (h : memberKey m1 = memberKey m2) :
    m1.address = m2.address ∧ m1.status = m2.status
      ∧ m1.has_deposited = m2.has_deposited ∧ m1.joined_at = m2.joined_at := by
  simp only [memberKey, Prod.mk.injEq] at h
  exact ⟨h.1, h.2.1, h.2.2.1, h.2.2.2⟩

/-- In the roster `advance` builds by expelling all delinquents and
renumbering, every record carrying the address of a delinquent member is
Expelled (addresses distinct). -/
theorem expelled_in_renumberPass (ms : List Member)
    (hnd : (ms.map (fun m => m.address)).Nodup)
    (m : Member) (hm : m ∈ ms) (hdel : delinquent m = true) :
    ∀ m2 ∈ renumber (expelPass ms), m2.address = m.address →
      m2.status = MemberStatus.Expelled := by
  intro m2 hm2 haddr
  obtain ⟨m3, hm3, hkey⟩ :=
    exists_key_mem (renumber_map_key (expelPass ms)).symm hm2
  obtain ⟨ha3, hs3, -, -⟩ := memberKey_fields hkey
  obtain ⟨m0, hm0, hfm0⟩ := List.mem_map.mp hm3
  have ha0 : m0.address = m.address := by
    have : m3.address = m0.address := by
      rw [← hfm0]
      split <;> rfl
    rw [← this, ha3, haddr]
  have hm0m : m0 = m := mem_addr_unique ms hnd m0 m hm0 hm ha0
  subst hm0m
  rw [← hs3, ← hfm0, if_pos hdel]

/-- C4: a successful `expel_delinquent` marks the target Expelled and
decrements `total_cycles` by exactly 1 iff the target's status was Active
(a Received target keeps `total_cycles` unchanged); the same per-member
rule governs an `advance` expulsion pass, whose total decrement is one per
expelled member whose status was not Received. -/
theorem C4_total_cycles_decrement :
    (∀ (now : Nat) (target : Addr) (s : St) (t : Tanda),
      s.tanda = some t →
      ((getMembers s).map (fun m => m.address)).Nodup →
      1 ≤ t.total_cycles →
      (expel_delinquent now target s).err = none →
      ∃ m ∈ getMembers s, m.address = target
        ∧ (∃ m2 ∈ getMembers (expel_delinquent now target s).st,
            m2.address = target ∧ m2.status = MemberStatus.Expelled)
        ∧ (∀ m2 ∈ getMembers (expel_delinquent now target s).st,
            m2.address = target → m2.status = MemberStatus.Expelled)
        ∧ ∃ t2, (expel_delinquent now target s).st.tanda = some t2
            ∧ (m.status = MemberStatus.Received →
                t2.total_cycles = t.total_cycles)
            ∧ (m.status = MemberStatus.Active →
                t2.total_cycles + 1 = t.total_cycles))
    ∧ (∀ (cfg : Cfg) (xf : XferOk) (now : Nat) (s : St) (t : Tanda),
      s.tanda = some t →
      ((getMembers s).map (fun m => m.address)).Nodup →
      now ≥ t.last_payout_at + delinquencySeconds →
      expelPassDecr (getMembers s) ≤ t.total_cycles →
      (advance cfg xf now s).err = none →
      ∃ t2, (advance cfg xf now s).st.tanda = some t2
        ∧ t2.total_cycles + expelPassDecr (getMembers s) = t.total_cycles
        ∧ ∀ m ∈ getMembers s, delinquent m = true →
            ∀ m2 ∈ getMembers (advance cfg xf now s).st,
              m2.address = m.address → m2.status = MemberStatus.Expelled) := by
  constructor
  · -- expel_delinquent
    intro now target s t ht hnd hpos hsucc
    by_cases h1 : t.status = TandaStatus.Active
    case neg =>
      exfalso
      have : (expel_delinquent now target s).err = some Err.notActive := by
        simp [expel_delinquent, ht, h1]
      rw [this] at hsucc
      exact Option.noConfusion hsucc
    case pos =>
    by_cases h2 : now < t.last_payout_at + delinquencySeconds
    · exfalso
      have : (expel_delinquent now target s).err
          = some Err.delinquencyNotPassed := by
        simp [expel_delinquent, ht, h1, h2]
      rw [this] at hsucc
      exact Option.noConfusion hsucc
    · cases hsc : expelScan target (getMembers s) with
      | error e2 =>
        exfalso
        have : (expel_delinquent now target s).err = some e2 := by
          simp [expel_delinquent, ht, h1, h2, hsc]
        rw [this] at hsucc
        exact Option.noConfusion hsucc
      | ok out =>
        obtain ⟨ms1, found, hr⟩ := out
        by_cases hfound : found = true
        · subst hfound
          obtain ⟨hms1, hany⟩ := expelScan_ok target (getMembers s) ms1 true hr hsc
          obtain ⟨m, hm, hma⟩ : ∃ m ∈ getMembers s, m.address = target := by
            have := hany.symm
            simp only [List.any_eq_true, decide_eq_true_eq] at this
            obtain ⟨m, hm, he⟩ := this
            exact ⟨m, hm, he⟩
          obtain ⟨hhr, hmne, -⟩ :=
            expelScan_hadReceived target (getMembers s) ms1 true hr hnd hsc m hm hma
          rw [expel_delinquent_spec now target s t ms1 hr ht h1 h2 hsc]
          have hmemP : getMembers ((⟨⟨some { t with total_cycles :=
                if hr then t.total_cycles else t.total_cycles - 1 },
              some (renumber ms1)⟩, [], none⟩ : OpOut)).st = renumber ms1 := rfl
          refine ⟨m, hm, hma, ?_, ?_, ?_⟩
          · -- existence of the expelled record
            rw [hmemP]
            have hf : ({ m with status := MemberStatus.Expelled }) ∈ ms1 := by
              rw [hms1]
              have := List.mem_map_of_mem (fun m0 =>
                if m0.address = target then
                  { m0 with status := MemberStatus.Expelled } else m0) hm
              simpa [hma] using this
            obtain ⟨m2, hm2, hkey⟩ :=
              exists_key_mem (renumber_map_key ms1) hf
            obtain ⟨ha2, hs2, -, -⟩ := memberKey_fields hkey
            exact ⟨m2, hm2, by rw [ha2]; exact hma, by rw [hs2]⟩
          · -- every record with the target's address is Expelled
            rw [hmemP]
            intro m2 hm2 ha2
            obtain ⟨m3, hm3, hkey⟩ :=
              exists_key_mem (renumber_map_key ms1).symm hm2
            obtain ⟨ha3, hs3, -, -⟩ := memberKey_fields hkey
            rw [hms1] at hm3
            obtain ⟨m0, hm0, hfm0⟩ := List.mem_map.mp hm3
            have ha0 : m0.address = target := by
              have haddr3 : m3.address = m0.address := by
                rw [← hfm0]
                split <;> rfl
              rw [← haddr3, ha3]
              exact ha2
            rw [← hs3, ← hfm0, if_pos ha0]
          · -- total_cycles rule
            refine ⟨_, rfl, ?_, ?_⟩
            · intro hrec
              rw [hhr, hrec]
              simp
            · intro hact
              rw [hhr, hact]
              simp only [decide_eq_true_eq]
              rw [if_neg (by simp)]
              omega
        · exfalso
          have : (expel_delinquent now target s).err = some Err.memberNotFound := by
            simp [expel_delinquent, ht, h1, h2, hsc, hfound]
          rw [this] at hsucc
          exact Option.noConfusion hsucc
  · -- advance
    intro cfg xf now s t ht hnd hdl hdecr hsucc
    by_cases h1 : t.status = TandaStatus.Active
    case neg =>
      exfalso
      have : (advance cfg xf now s).err = some Err.notActive := by
        simp [advance, ht, h1]
      rw [this] at hsucc
      exact Option.noConfusion hsucc
    case pos =>
    have hdlb : decide (now ≥ t.last_payout_at + delinquencySeconds) = true := by
      simpa using hdl
    have htot : advTotalAfter
        (decide (now ≥ t.last_payout_at + delinquencySeconds))
        t.total_cycles (getMembers s)
        = t.total_cycles - expelPassDecr (getMembers s) := by
      rw [advTotalAfter, if_pos hdlb]
    have hEx : ∀ m ∈ getMembers s, delinquent m = true →
        ∀ m2 ∈ advMembers1
          (decide (now ≥ t.last_payout_at + delinquencySeconds))
          (getMembers s), m2.address = m.address →
            m2.status = MemberStatus.Expelled := by
      intro m hm hdel
      have hany : expelledAnyB (getMembers s) = true :=
        (expelledAnyB_true_iff (getMembers s)).mpr ⟨m, hm, hdel⟩
      have : advMembers1
          (decide (now ≥ t.last_payout_at + delinquencySeconds))
          (getMembers s) = renumber (expelPass (getMembers s)) := by
        rw [advMembers1, if_pos (by simp [hdlb, hany])]
      rw [this]
      exact expelled_in_renumberPass (getMembers s) hnd m hm hdel
    by_cases hac :
      activeCount (advMembers1
        (decide (now ≥ t.last_payout_at + delinquencySeconds))
        (getMembers s)) ≤ 1
    · rw [advance_early_spec cfg xf now s t ht h1 hac]
      refine ⟨_, rfl, ?_, ?_⟩
      · simp only [htot]
        omega
      · exact hEx
    · by_cases had :
        allDepositedB (advMembers1
          (decide (now ≥ t.last_payout_at + delinquencySeconds))
          (getMembers s)) = true
      · cases hb : findBeneficiary (t.current_cycle - 1)
            (advMembers1
              (decide (now ≥ t.last_payout_at + delinquencySeconds))
              (getMembers s)) with
        | none =>
          exfalso
          have : (advance cfg xf now s).err = some Err.beneficiaryNotFound := by
            simp [advance, ht, h1, hac, had, hb]
          rw [this] at hsucc
          exact Option.noConfusion hsucc
        | some r =>
          by_cases h3 : xf cfg.contractAddr r
              (t.amount * (activeCount (advMembers1
                (decide (now ≥ t.last_payout_at + delinquencySeconds))
                (getMembers s)) : Int)) = true
          · rw [advance_payout_spec cfg xf now s t r ht h1 hac had hb h3]
            refine ⟨_, rfl, ?_, ?_⟩
            · simp only [htot]
              omega
            · intro m hm hdel m2 hm2 ha2
              have hnd1 : ((advMembers1
                  (decide (now ≥ t.last_payout_at + delinquencySeconds))
                  (getMembers s)).map (fun m => m.address)).Nodup := by
                rw [advMembers1_map_address]
                exact hnd
              obtain ⟨mb, hmb, hmba, -, hmbs⟩ :=
                findBeneficiary_some_mem _ _ _ hb
              obtain ⟨m4, hm4, hgm4⟩ := List.mem_map.mp hm2
              have ha4 : m4.address = m.address := by
                rw [← ha2, ← hgm4]
              have hs4 : m4.status = MemberStatus.Expelled :=
                hEx m hm hdel m4 hm4 ha4
              have hne : m4.address ≠ r := by
                intro he
                have : m4 = mb :=
                  mem_addr_unique _ hnd1 m4 mb hm4 hmb (by rw [he, hmba])
                rw [this, hmbs] at hs4
                exact MemberStatus.noConfusion hs4
              rw [← hgm4]
              simp only [if_neg hne]
              exact hs4
          · exfalso
            have : (advance cfg xf now s).err = some Err.transferFailed := by
              simp [advance, ht, h1, hac, had, hb, h3]
            rw [this] at hsucc
            exact Option.noConfusion hsucc
      · have had' : allDepositedB (advMembers1
            (decide (now ≥ t.last_payout_at + delinquencySeconds))
            (getMembers s)) = false := by
          simpa using had
        rw [advance_nopay_spec cfg xf now s t ht h1 hac had']
        refine ⟨_, rfl, ?_, ?_⟩
        · simp only [htot]
          omega
        · exact hEx

/-- Witness for C4: expelling the Active member 2 (total_cycles 2 → 1) and
an `advance` pass over the three-member tanda expelling the Active member 2
(total_cycles 3 → 2). -/
theorem C4_total_cycles_decrement_witness :
    (stDeposited.tanda = some tActiveW
      ∧ ((getMembers stDeposited).map (fun m => m.address)).Nodup
      ∧ 1 ≤ tActiveW.total_cycles
      ∧ (expel_delinquent 518400 2 stDeposited).err = none
      ∧ ∃ m ∈ getMembers stDeposited, m.address = 2
          ∧ (∃ m2 ∈ getMembers (expel_delinquent 518400 2 stDeposited).st,
              m2.address = 2 ∧ m2.status = MemberStatus.Expelled)
          ∧ (∀ m2 ∈ getMembers (expel_delinquent 518400 2 stDeposited).st,
              m2.address = 2 → m2.status = MemberStatus.Expelled)
          ∧ ∃ t2, (expel_delinquent 518400 2 stDeposited).st.tanda = some t2
              ∧ (m.status = MemberStatus.Received →
                  t2.total_cycles = tActiveW.total_cycles)
              ∧ (m.status = MemberStatus.Active →
                  t2.total_cycles + 1 = tActiveW.total_cycles))
    ∧ (stC3.tanda = some tC3
      ∧ ((getMembers stC3).map (fun m => m.address)).Nodup
      ∧ 518400 ≥ tC3.last_payout_at + delinquencySeconds
      ∧ expelPassDecr (getMembers stC3) ≤ tC3.total_cycles
      ∧ (advance cfgW xfAll 518400 stC3).err = none
      ∧ ∃ t2, (advance cfgW xfAll 518400 stC3).st.tanda = some t2
          ∧ t2.total_cycles + expelPassDecr (getMembers stC3)
              = tC3.total_cycles
          ∧ ∀ m ∈ getMembers stC3, delinquent m = true →
              ∀ m2 ∈ getMembers (advance cfgW xfAll 518400 stC3).st,
                m2.address = m.address → m2.status = MemberStatus.Expelled) :=
  ⟨⟨by decide, by decide, by decide, by decide,
    C4_total_cycles_decrement.1 518400 2 stDeposited tActiveW (by decide)
      (by decide) (by decide) (by decide)⟩,
   ⟨by decide, by decide, by decide, by decide, by decide,
    C4_total_cycles_decrement.2 cfgW xfAll 518400 stC3 tC3 (by decide)
      (by decide) (by decide) (by decide) (by decide)⟩⟩

theorem allDepositedB_false_of_mem (ms : List Member) (m : Member)
    (hm : m ∈ ms) (hs : m.status ≠ MemberStatus.Expelled)
    (hd : m.has_deposited = false) : allDepositedB ms = false := by
  simp only [allDepositedB, List.all_eq_false]
  exact ⟨m, hm, by simp [hs, hd]⟩

/-- The store both deposits have been made into: ready for payout. -/
def stBoth : St := (deposit cfgW xfAll 2 stDeposited).st

/-- C6: on an Active tanda, if some non-Expelled member has not deposited the
payout call fails with `notAllDeposited` and changes nothing; a successful
`trigger_payout` transfers `amount * active_count` to the Active member at
position `current_cycle - 1` (unique under the position-uniqueness
invariant), marks that member Received, clears every `has_deposited` flag,
bumps `current_cycle` by 1, stamps `last_payout_at := now`, keeps
`total_cycles`, and completes exactly when the new cycle exceeds
`total_cycles`. -/
theorem C6_trigger_payout_correct (cfg : Cfg) (xf : XferOk) (now : Nat)
    (s : St) (t : Tanda) (ht : s.tanda = some t)
    (hAct : t.status = TandaStatus.Active) :
    ((∃ m ∈ getMembers s, m.status ≠ MemberStatus.Expelled
        ∧ m.has_deposited = false) →
      (trigger_payout cfg xf now s).err = some Err.notAllDeposited
      ∧ (trigger_payout cfg xf now s).st = s)
    ∧ ((∀ m1 ∈ getMembers s, ∀ m2 ∈ getMembers s,
          m1.status = MemberStatus.Active → m2.status = MemberStatus.Active →
          m1.position = m2.position → m1 = m2) →
       (trigger_payout cfg xf now s).err = none →
       ∃ r, (trigger_payout cfg xf now s).transfers
            = [⟨cfg.contractAddr, r,
                t.amount * (activeCount (getMembers s) : Int)⟩]
         ∧ (∃ m ∈ getMembers s, m.address = r
              ∧ m.status = MemberStatus.Active
              ∧ m.position = t.current_cycle - 1)
         ∧ (∀ m ∈ getMembers s, m.status = MemberStatus.Active →
              m.position = t.current_cycle - 1 → m.address = r)
         ∧ (trigger_payout cfg xf now s).st.members
             = some (payoutMap r (getMembers s))
         ∧ (∀ m2 ∈ getMembers (trigger_payout cfg xf now s).st,
              m2.has_deposited = false)
         ∧ (∀ m2 ∈ getMembers (trigger_payout cfg xf now s).st,
              m2.address = r → m2.status = MemberStatus.Received)
         ∧ ∃ t2, (trigger_payout cfg xf now s).st.tanda = some t2
             ∧ t2.current_cycle = t.current_cycle + 1
             ∧ t2.last_payout_at = now
             ∧ t2.total_cycles = t.total_cycles
             ∧ (t2.status = TandaStatus.Completed
                 ↔ t2.current_cycle > t2.total_cycles)) := by
  constructor
  · rintro ⟨m, hm, hs, hd⟩
    have hfalse : allDepositedB (getMembers s) = false :=
      allDepositedB_false_of_mem (getMembers s) m hm hs hd
    constructor <;>
      simp [trigger_payout, ht, hAct, hfalse]
  · intro hupos hsucc
    by_cases h2 : allDepositedB (getMembers s) = true
    · cases hb : findBeneficiary (t.current_cycle - 1) (getMembers s) with
      | none =>
        exfalso
        have : (trigger_payout cfg xf now s).err
            = some Err.beneficiaryNotFound := by
          simp [trigger_payout, ht, hAct, h2, hb]
        rw [this] at hsucc
        exact Option.noConfusion hsucc
      | some r =>
        by_cases h3 : xf cfg.contractAddr r
            (t.amount * (activeCount (getMembers s) : Int)) = true
        · rw [trigger_payout_spec cfg xf now s t r ht hAct h2 hb h3]
          obtain ⟨mb, hmb, hmba, hmbp, hmbs⟩ :=
            findBeneficiary_some_mem _ _ _ hb
          refine ⟨r, rfl, ⟨mb, hmb, hmba, hmbs, hmbp⟩, ?_, rfl, ?_, ?_, ?_⟩
          · intro m hm hms hmp
            have : m = mb := hupos m hm mb hmb hms hmbs (hmp.trans hmbp.symm)
            rw [this, hmba]
          · intro m2 hm2
            obtain ⟨m4, hm4, hgm4⟩ := List.mem_map.mp hm2
            rw [← hgm4]
          · intro m2 hm2 ha2
            obtain ⟨m4, hm4, hgm4⟩ := List.mem_map.mp hm2
            have ha4 : m4.address = r := by rw [← ha2, ← hgm4]
            rw [← hgm4]
            simp only [if_pos ha4]
          · refine ⟨_, rfl, rfl, rfl, rfl, ?_⟩
            constructor
            · intro hcomp
              by_contra hgt
              simp only [if_neg hgt] at hcomp
              rw [hAct] at hcomp
              exact TandaStatus.noConfusion hcomp
            · intro hgt
              simp only [if_pos hgt]
        · exfalso
          have : (trigger_payout cfg xf now s).err = some Err.transferFailed := by
            simp [trigger_payout, ht, hAct, h2, hb, h3]
          rw [this] at hsucc
          exact Option.noConfusion hsucc
    · exfalso
      have h2' : allDepositedB (getMembers s) = false := by simpa using h2
      have : (trigger_payout cfg xf now s).err = some Err.notAllDeposited := by
        simp [trigger_payout, ht, hAct, h2']
      rw [this] at hsucc
      exact Option.noConfusion hsucc

/-- Witness for C6: the not-ready branch on the half-funded tanda and a full
payout on the fully-funded one (beneficiary is member 1 at position 0). -/
theorem C6_trigger_payout_correct_witness :
    (stActive.tanda = some tActiveW
      ∧ tActiveW.status = TandaStatus.Active
      ∧ (∃ m ∈ getMembers stActive, m.status ≠ MemberStatus.Expelled
          ∧ m.has_deposited = false)
      ∧ (trigger_payout cfgW xfAll 5 stActive).err = some Err.notAllDeposited
      ∧ (trigger_payout cfgW xfAll 5 stActive).st = stActive)
    ∧ (stBoth.tanda = some tActiveW
      ∧ (∀ m1 ∈ getMembers stBoth, ∀ m2 ∈ getMembers stBoth,
          m1.status = MemberStatus.Active → m2.status = MemberStatus.Active →
          m1.position = m2.position → m1 = m2)
      ∧ (trigger_payout cfgW xfAll 5 stBoth).err = none
      ∧ ∃ r, (trigger_payout cfgW xfAll 5 stBoth).transfers
            = [⟨cfgW.contractAddr, r,
                tActiveW.amount * (activeCount (getMembers stBoth) : Int)⟩]
         ∧ (∃ m ∈ getMembers stBoth, m.address = r
              ∧ m.status = MemberStatus.Active
              ∧ m.position = tActiveW.current_cycle - 1)
         ∧ (∀ m ∈ getMembers stBoth, m.status = MemberStatus.Active →
              m.position = tActiveW.current_cycle - 1 → m.address = r)
         ∧ (trigger_payout cfgW xfAll 5 stBoth).st.members
             = some (payoutMap r (getMembers stBoth))
         ∧ (∀ m2 ∈ getMembers (trigger_payout cfgW xfAll 5 stBoth).st,
              m2.has_deposited = false)
         ∧ (∀ m2 ∈ getMembers (trigger_payout cfgW xfAll 5 stBoth).st,
              m2.address = r → m2.status = MemberStatus.Received)
         ∧ ∃ t2, (trigger_payout cfgW xfAll 5 stBoth).st.tanda = some t2
             ∧ t2.current_cycle = tActiveW.current_cycle + 1
             ∧ t2.last_payout_at = 5
             ∧ t2.total_cycles = tActiveW.total_cycles
             ∧ (t2.status = TandaStatus.Completed
                 ↔ t2.current_cycle > t2.total_cycles)) :=
  ⟨⟨by decide, by decide, by decide,
    ((C6_trigger_payout_correct cfgW xfAll 5 stActive tActiveW (by decide)
        (by decide)).1 (by decide)).1,
    ((C6_trigger_payout_correct cfgW xfAll 5 stActive tActiveW (by decide)
        (by decide)).1 (by decide)).2⟩,
   ⟨by decide, by decide, by decide,
    (C6_trigger_payout_correct cfgW xfAll 5 stBoth tActiveW (by decide)
        (by decide)).2 (by decide) (by decide)⟩⟩

theorem activeCount_le_payoutMap (r : Addr) (ms : List Member) :
    activeCount ms ≤ activeCount (payoutMap r ms) := by
  induction ms with
  | nil => exact Nat.le_refl 0
  | cons m rest ih =>
    by_cases ha : m.address = r
    · by_cases hm : m.status = MemberStatus.Expelled <;>
        · simp [payoutMap, activeCount, List.filter_cons, ha, hm] at ih ⊢
          omega
    · by_cases hm : m.status = MemberStatus.Expelled <;>
        · simp [payoutMap, activeCount, List.filter_cons, ha, hm] at ih ⊢
          omega

/-- C1 counterexample: a reachable operation chain (create's persisted state,
join, start, expel the delinquent member 2 at the deadline) where
`expel_delinquent` shrinks the non-Expelled membership to 1 but persists the
tanda still `Active`, contradicting the claim that any such operation leaves
the status `Completed`. -/
theorem C1_counterexample_expel_leaves_active :
    (join_tanda 0 2 stCreated).err = none
    ∧ stJoined = (join_tanda 0 2 stCreated).st
    ∧ (start_tanda 0 1 stJoined).err = none
    ∧ stActive = (start_tanda 0 1 stJoined).st
    ∧ (expel_delinquent 518400 2 stActive).err = none
    ∧ activeCount (getMembers (expel_delinquent 518400 2 stActive).st) = 1
    ∧ (expel_delinquent 518400 2 stActive).st.tanda
        = some ⟨1, 0, 1, 100, 3, TandaStatus.Active, 1, 1, 0, 0, 0⟩ := by
  decide

/-- C1 amended: completion is enforced only where the code checks it —
`trigger_payout` persists Completed iff the incremented cycle exceeds
`total_cycles`; `advance` persists Completed whenever its persisted roster
has ≤ 1 non-Expelled members, and, when it pays out, iff the new cycle
exceeds the (possibly reduced) `total_cycles`; `expel_delinquent` never
changes `status` or `current_cycle`, so it can persist an Active tanda with
≤ 1 non-Expelled members or `current_cycle > total_cycles`. -/
theorem C1_completion_rules :
    (∀ (now : Nat) (a : Addr) (s : St) (t : Tanda),
      s.tanda = some t →
      (expel_delinquent now a s).err = none →
      ∃ t2, (expel_delinquent now a s).st.tanda = some t2
        ∧ t2.status = t.status ∧ t2.current_cycle = t.current_cycle)
    ∧ (∀ (cfg : Cfg) (xf : XferOk) (now : Nat) (s : St) (t : Tanda),
      s.tanda = some t →
      (trigger_payout cfg xf now s).err = none →
      ∃ t2, (trigger_payout cfg xf now s).st.tanda = some t2
        ∧ (t2.status = TandaStatus.Completed
            ↔ t2.current_cycle > t2.total_cycles))
    ∧ (∀ (cfg : Cfg) (xf : XferOk) (now : Nat) (s : St),
      (advance cfg xf now s).err = none →
      (activeCount (getMembers (advance cfg xf now s).st) ≤ 1 →
        ∃ t2, (advance cfg xf now s).st.tanda = some t2
          ∧ t2.status = TandaStatus.Completed)
      ∧ ((advance cfg xf now s).transfers ≠ [] →
        ∃ t2, (advance cfg xf now s).st.tanda = some t2
          ∧ (t2.status = TandaStatus.Completed
              ↔ t2.current_cycle > t2.total_cycles))) := by
  refine ⟨?_, ?_, ?_⟩
  · -- expel_delinquent never touches status or cycle
    intro now a s t ht hsucc
    by_cases h1 : t.status = TandaStatus.Active
    case neg =>
      exfalso
      have : (expel_delinquent now a s).err = some Err.notActive := by
        simp [expel_delinquent, ht, h1]
      rw [this] at hsucc
      exact Option.noConfusion hsucc
    case pos =>
    by_cases h2 : now < t.last_payout_at + delinquencySeconds
    · exfalso
      have : (expel_delinquent now a s).err = some Err.delinquencyNotPassed := by
        simp [expel_delinquent, ht, h1, h2]
      rw [this] at hsucc
      exact Option.noConfusion hsucc
    · cases hsc : expelScan a (getMembers s) with
      | error e2 =>
        exfalso
        have : (expel_delinquent now a s).err = some e2 := by
          simp [expel_delinquent, ht, h1, h2, hsc]
        rw [this] at hsucc
        exact Option.noConfusion hsucc
      | ok out =>
        obtain ⟨ms1, found, hr⟩ := out
        by_cases hfound : found = true
        · subst hfound
          rw [expel_delinquent_spec now a s t ms1 hr ht h1 h2 hsc]
          exact ⟨_, rfl, rfl, rfl⟩
        · exfalso
          have : (expel_delinquent now a s).err = some Err.memberNotFound := by
            simp [expel_delinquent, ht, h1, h2, hsc, hfound]
          rw [this] at hsucc
          exact Option.noConfusion hsucc
  · -- trigger_payout completes iff the new cycle exceeds total_cycles
    intro cfg xf now s t ht hsucc
    by_cases h1 : t.status = TandaStatus.Active
    case neg =>
      exfalso
      have : (trigger_payout cfg xf now s).err = some Err.notActive := by
        simp [trigger_payout, ht, h1]
      rw [this] at hsucc
      exact Option.noConfusion hsucc
    case pos =>
    by_cases h2 : allDepositedB (getMembers s) = true
    · cases hb : findBeneficiary (t.current_cycle - 1) (getMembers s) with
      | none =>
        exfalso
        have : (trigger_payout cfg xf now s).err
            = some Err.beneficiaryNotFound := by
          simp [trigger_payout, ht, h1, h2, hb]
        rw [this] at hsucc
        exact Option.noConfusion hsucc
      | some r =>
        by_cases h3 : xf cfg.contractAddr r
            (t.amount * (activeCount (getMembers s) : Int)) = true
        · rw [trigger_payout_spec cfg xf now s t r ht h1 h2 hb h3]
          refine ⟨_, rfl, ?_⟩
          constructor
          · intro hcomp
            by_contra hgt
            simp only [if_neg hgt] at hcomp
            rw [h1] at hcomp
            exact TandaStatus.noConfusion hcomp
          · intro hgt
            simp only [if_pos hgt]
        · exfalso
          have : (trigger_payout cfg xf now s).err = some Err.transferFailed := by
            simp [trigger_payout, ht, h1, h2, hb, h3]
          rw [this] at hsucc
          exact Option.noConfusion hsucc
    · exfalso
      have h2' : allDepositedB (getMembers s) = false := by simpa using h2
      have : (trigger_payout cfg xf now s).err = some Err.notAllDeposited := by
        simp [trigger_payout, ht, h1, h2']
      rw [this] at hsucc
      exact Option.noConfusion hsucc
  · -- advance
    intro cfg xf now s hsucc
    cases hs : s.tanda with
    | none => simp [advance, hs] at hsucc
    | some t =>
      by_cases h1 : t.status = TandaStatus.Active
      case neg =>
        exfalso
        have : (advance cfg xf now s).err = some Err.notActive := by
          simp [advance, hs, h1]
        rw [this] at hsucc
        exact Option.noConfusion hsucc
      case pos =>
      by_cases hac :
        activeCount (advMembers1
          (decide (now ≥ t.last_payout_at + delinquencySeconds))
          (getMembers s)) ≤ 1
      · rw [advance_early_spec cfg xf now s t hs h1 hac]
        exact ⟨fun _ => ⟨_, rfl, rfl⟩, fun htr => absurd rfl htr⟩
      · by_cases had :
          allDepositedB (advMembers1
            (decide (now ≥ t.last_payout_at + delinquencySeconds))
            (getMembers s)) = true
        · cases hb : findBeneficiary (t.current_cycle - 1)
              (advMembers1
                (decide (now ≥ t.last_payout_at + delinquencySeconds))
                (getMembers s)) with
          | none =>
            exfalso
            have : (advance cfg xf now s).err = some Err.beneficiaryNotFound := by
              simp [advance, hs, h1, hac, had, hb]
            rw [this] at hsucc
            exact Option.noConfusion hsucc
          | some r =>
            by_cases h3 : xf cfg.contractAddr r
                (t.amount * (activeCount (advMembers1
                  (decide (now ≥ t.last_payout_at + delinquencySeconds))
                  (getMembers s)) : Int)) = true
            · rw [advance_payout_spec cfg xf now s t r hs h1 hac had hb h3]
              constructor
              · intro hle
                exfalso
                have hge := activeCount_le_payoutMap r
                  (advMembers1
                    (decide (now ≥ t.last_payout_at + delinquencySeconds))
                    (getMembers s))
                have hred : activeCount (payoutMap r (advMembers1
                    (decide (now ≥ t.last_payout_at + delinquencySeconds))
                    (getMembers s))) ≤ 1 := hle
                omega
              · intro _
                refine ⟨_, rfl, ?_⟩
                constructor
                · intro hcomp
                  by_contra hgt
                  simp only [if_neg hgt] at hcomp
                  rw [h1] at hcomp
                  exact TandaStatus.noConfusion hcomp
                · intro hgt
                  simp only [if_pos hgt]
            · exfalso
              have : (advance cfg xf now s).err = some Err.transferFailed := by
                simp [advance, hs, h1, hac, had, hb, h3]
              rw [this] at hsucc
              exact Option.noConfusion hsucc
        · have had' : allDepositedB (advMembers1
              (decide (now ≥ t.last_payout_at + delinquencySeconds))
              (getMembers s)) = false := by
            simpa using had
          rw [advance_nopay_spec cfg xf now s t hs h1 hac had']
          refine ⟨fun hle => absurd hle (by simpa using hac),
                  fun htr => absurd rfl htr⟩

/-- Witness for C1's amended rules: expelling member 2, paying out the
two-member tanda, and an `advance` that completes the one-member tanda. -/
theorem C1_completion_rules_witness :
    (stDeposited.tanda = some tActiveW
      ∧ (expel_delinquent 518400 2 stDeposited).err = none
      ∧ ∃ t2, (expel_delinquent 518400 2 stDeposited).st.tanda = some t2
          ∧ t2.status = tActiveW.status
          ∧ t2.current_cycle = tActiveW.current_cycle)
    ∧ (stBoth.tanda = some tActiveW
      ∧ (trigger_payout cfgW xfAll 5 stBoth).err = none
      ∧ ∃ t2, (trigger_payout cfgW xfAll 5 stBoth).st.tanda = some t2
          ∧ (t2.status = TandaStatus.Completed
              ↔ t2.current_cycle > t2.total_cycles))
    ∧ ((advance cfgW xfAll 518400 expelAtDeadline.st).err = none
      ∧ ((activeCount (getMembers
            (advance cfgW xfAll 518400 expelAtDeadline.st).st) ≤ 1 →
          ∃ t2, (advance cfgW xfAll 518400 expelAtDeadline.st).st.tanda
              = some t2 ∧ t2.status = TandaStatus.Completed)
        ∧ ((advance cfgW xfAll 518400 expelAtDeadline.st).transfers ≠ [] →
          ∃ t2, (advance cfgW xfAll 518400 expelAtDeadline.st).st.tanda
              = some t2
            ∧ (t2.status = TandaStatus.Completed
                ↔ t2.current_cycle > t2.total_cycles)))) :=
  ⟨⟨by decide, by decide,
    C1_completion_rules.1 518400 2 stDeposited tActiveW (by decide)
      (by decide)⟩,
   ⟨by decide, by decide,
    C1_completion_rules.2.1 cfgW xfAll 5 stBoth tActiveW (by decide)
      (by decide)⟩,
   ⟨by decide,
    C1_completion_rules.2.2 cfgW xfAll 518400 expelAtDeadline.st
      (by decide)⟩⟩

theorem expelPassDecr_eq_zero (ms : List Member)
    (h : expelledAnyB ms = false) : expelPassDecr ms = 0 := by
  simp only [expelPassDecr, List.length_eq_zero]
  simp only [expelledAnyB, List.any_eq_false] at h
  apply List.filter_eq_nil_iff.mpr
  intro m hm
  simp [h m hm]

theorem expelledCount_lt_pass (ms : List Member)
    (h : expelledAnyB ms = true) :
    expelledCount ms < expelledCount (renumber (expelPass ms)) := by
  rw [renumber, expelledCount_renumberGo, expelledCount_expelPass]
  obtain ⟨m, hm, hdel⟩ := (expelledAnyB_true_iff ms).mp h
  have : 0 < (ms.filter delinquent).length :=
    List.length_pos.mpr (List.ne_nil_of_mem (List.mem_filter.mpr ⟨hm, hdel⟩))
  omega

/-- C2 counterexample: on the reachable one-active-member tanda (member 2
already expelled, member 1 deposited), `advance` flips the status from
Active to Completed — a state change — yet returns `false`. -/
theorem C2_counterexample_completion_returns_false :
    (advance cfgW xfAll 518400 expelAtDeadline.st).err = none
    ∧ (advance cfgW xfAll 518400 expelAtDeadline.st).ret = false
    ∧ (advance cfgW xfAll 518400 expelAtDeadline.st).st ≠ expelAtDeadline.st
    ∧ (advance cfgW xfAll 518400 expelAtDeadline.st).st.tanda
        = some ⟨1, 0, 1, 100, 3, TandaStatus.Completed, 1, 1, 0, 0, 0⟩
    ∧ expelAtDeadline.st.tanda
        = some ⟨1, 0, 1, 100, 3, TandaStatus.Active, 1, 1, 0, 0, 0⟩ := by
  decide

/-- C2 amended: a successful `advance` returns true iff it expelled a member
(deadline passed and someone was delinquent) or performed a payout; a `true`
return implies the persisted state differs; but a `false` return only implies
the state is unchanged OR is the shrink-to-Completed transition, which
changes the status while returning false. -/
theorem C2_advance_return_value (cfg : Cfg) (xf : XferOk) (now : Nat)
    (s : St) (t : Tanda) (msl : List Member)
    (ht : s.tanda = some t) (hms : s.members = some msl)
    (hsucc : (advance cfg xf now s).err = none) :
    ((advance cfg xf now s).ret = true
      ↔ ((now ≥ t.last_payout_at + delinquencySeconds
            ∧ ∃ m ∈ getMembers s, delinquent m = true)
          ∨ (advance cfg xf now s).transfers ≠ []))
    ∧ ((advance cfg xf now s).ret = true → (advance cfg xf now s).st ≠ s)
    ∧ ((advance cfg xf now s).ret = false →
        (advance cfg xf now s).st = s
        ∨ (advance cfg xf now s).st
            = ⟨some { t with status := TandaStatus.Completed }, s.members⟩) := by
  have hget : getMembers s = msl := by simp [getMembers, hms]
  have hSt : s = ⟨some t, some msl⟩ := by
    cases s
    simp_all
  by_cases h1 : t.status = TandaStatus.Active
  case neg =>
    exfalso
    have : (advance cfg xf now s).err = some Err.notActive := by
      simp [advance, ht, h1]
    rw [this] at hsucc
    exact Option.noConfusion hsucc
  case pos =>
  -- shared facts about the no-expulsion shape
  have hms1_id : (decide (now ≥ t.last_payout_at + delinquencySeconds)
        && expelledAnyB (getMembers s)) = false →
      advMembers1 (decide (now ≥ t.last_payout_at + delinquencySeconds))
        (getMembers s) = getMembers s := by
    intro hexp
    rw [advMembers1, if_neg (by simp [hexp])]
  have htot_id : (decide (now ≥ t.last_payout_at + delinquencySeconds)
        && expelledAnyB (getMembers s)) = false →
      advTotalAfter (decide (now ≥ t.last_payout_at + delinquencySeconds))
        t.total_cycles (getMembers s) = t.total_cycles := by
    intro hexp
    rw [advTotalAfter]
    by_cases hdl : decide (now ≥ t.last_payout_at + delinquencySeconds) = true
    · rw [hdl] at hexp
      simp only [Bool.true_and] at hexp
      rw [if_pos hdl, expelPassDecr_eq_zero (getMembers s) hexp]
      exact Nat.sub_zero _
    · rw [if_neg hdl]
  have hIff : ((decide (now ≥ t.last_payout_at + delinquencySeconds)
        && expelledAnyB (getMembers s)) = true)
      ↔ (now ≥ t.last_payout_at + delinquencySeconds
          ∧ ∃ m ∈ getMembers s, delinquent m = true) := by
    rw [Bool.and_eq_true, expelledAnyB_true_iff]
    simp
  have hNeq : (decide (now ≥ t.last_payout_at + delinquencySeconds)
        && expelledAnyB (getMembers s)) = true →
      (some (advMembers1 (decide (now ≥ t.last_payout_at + delinquencySeconds))
          (getMembers s)) : Option (List Member)) ≠ s.members := by
    intro hexp heq
    have hany : expelledAnyB (getMembers s) = true := by
      simp only [Bool.and_eq_true] at hexp
      exact hexp.2
    rw [advMembers1, if_pos (by simp [hexp]), hms, Option.some.injEq] at heq
    have hlt := expelledCount_lt_pass (getMembers s) hany
    rw [hget] at hlt heq
    rw [heq] at hlt
    omega
  by_cases hac :
    activeCount (advMembers1
      (decide (now ≥ t.last_payout_at + delinquencySeconds))
      (getMembers s)) ≤ 1
  · rw [advance_early_spec cfg xf now s t ht h1 hac]
    refine ⟨by simpa using hIff, ?_, ?_⟩
    · intro hexp heq
      exact hNeq hexp (congrArg St.members heq)
    · intro hret
      right
      rw [hms1_id hret, htot_id hret, hget, hms]
  · by_cases had :
      allDepositedB (advMembers1
        (decide (now ≥ t.last_payout_at + delinquencySeconds))
        (getMembers s)) = true
    · cases hb : findBeneficiary (t.current_cycle - 1)
          (advMembers1
            (decide (now ≥ t.last_payout_at + delinquencySeconds))
            (getMembers s)) with
      | none =>
        exfalso
        have : (advance cfg xf now s).err = some Err.beneficiaryNotFound := by
          simp [advance, ht, h1, hac, had, hb]
        rw [this] at hsucc
        exact Option.noConfusion hsucc
      | some r =>
        by_cases h3 : xf cfg.contractAddr r
            (t.amount * (activeCount (advMembers1
              (decide (now ≥ t.last_payout_at + delinquencySeconds))
              (getMembers s)) : Int)) = true
        · rw [advance_payout_spec cfg xf now s t r ht h1 hac had hb h3]
          refine ⟨?_, ?_, ?_⟩
          · simp [had]
          · intro _ heq
            have h4 := congrArg St.tanda heq
            simp only [ht, Option.some.injEq] at h4
            have h5 := congrArg Tanda.current_cycle h4
            simp only at h5
            omega
          · intro hret
            simp [had] at hret
        · exfalso
          have : (advance cfg xf now s).err = some Err.transferFailed := by
            simp [advance, ht, h1, hac, had, hb, h3]
          rw [this] at hsucc
          exact Option.noConfusion hsucc
    · have had' : allDepositedB (advMembers1
          (decide (now ≥ t.last_payout_at + delinquencySeconds))
          (getMembers s)) = false := by
        simpa using had
      rw [advance_nopay_spec cfg xf now s t ht h1 hac had']
      refine ⟨?_, ?_, ?_⟩
      · simp only [had', Bool.or_false]
        simpa using hIff
      · intro hret heq
        simp only [had', Bool.or_false] at hret
        exact hNeq hret (congrArg St.members heq)
      · intro hret
        left
        simp only [had', Bool.or_false] at hret
        rw [hms1_id hret, htot_id hret, hget, hSt]

/-- Witness for C2's amended statement at the concrete one-active-member
state: advance completes the tanda, returning false with no expulsion and
no payout. -/
theorem C2_advance_return_value_witness :
    expelAtDeadline.st.tanda
        = some ⟨1, 0, 1, 100, 3, TandaStatus.Active, 1, 1, 0, 0, 0⟩
    ∧ expelAtDeadline.st.members
        = some [⟨1, MemberStatus.Active, 0, true, 0⟩,
                ⟨2, MemberStatus.Expelled, 1, false, 0⟩]
    ∧ (advance cfgW xfAll 518400 expelAtDeadline.st).err = none
    ∧ (((advance cfgW xfAll 518400 expelAtDeadline.st).ret = true
      ↔ ((518400 ≥ (⟨1, 0, 1, 100, 3, TandaStatus.Active, 1, 1, 0, 0,
            0⟩ : Tanda).last_payout_at + delinquencySeconds
            ∧ ∃ m ∈ getMembers expelAtDeadline.st, delinquent m = true)
          ∨ (advance cfgW xfAll 518400 expelAtDeadline.st).transfers ≠ []))
    ∧ ((advance cfgW xfAll 518400 expelAtDeadline.st).ret = true →
        (advance cfgW xfAll 518400 expelAtDeadline.st).st ≠ expelAtDeadline.st)
    ∧ ((advance cfgW xfAll 518400 expelAtDeadline.st).ret = false →
        (advance cfgW xfAll 518400 expelAtDeadline.st).st = expelAtDeadline.st
        ∨ (advance cfgW xfAll 518400 expelAtDeadline.st).st
            = ⟨some { (⟨1, 0, 1, 100, 3, TandaStatus.Active, 1, 1, 0, 0,
                  0⟩ : Tanda) with status := TandaStatus.Completed },
               expelAtDeadline.st.members⟩)) :=
  ⟨by decide, by decide, by decide,
   C2_advance_return_value cfgW xfAll 518400 expelAtDeadline.st
     ⟨1, 0, 1, 100, 3, TandaStatus.Active, 1, 1, 0, 0, 0⟩
     [⟨1, MemberStatus.Active, 0, true, 0⟩,
      ⟨2, MemberStatus.Expelled, 1, false, 0⟩]
     (by decide) (by decide) (by decide)⟩

theorem allDepositedB_iff (ms : List Member) :
    allDepositedB ms = true
      ↔ ∀ m ∈ ms, m.status ≠ MemberStatus.Expelled →
          m.has_deposited = true := by
  simp only [allDepositedB, List.all_eq_true, Bool.or_eq_true,
             decide_eq_true_eq]
  constructor
  · intro h m hm hs
    rcases h m hm with h1 | h1
    · exact absurd h1 hs
    · exact h1
  · intro h m hm
    by_cases hs : m.status = MemberStatus.Expelled
    · exact Or.inl hs
    · exact Or.inr (h m hm hs)

theorem allDepositedB_of_noDelinquent (ms : List Member)
    (h : expelledAnyB ms = false) : allDepositedB ms = true := by
  rw [allDepositedB_iff]
  intro m hm hs
  simp only [expelledAnyB, List.any_eq_false] at h
  have h2 := h m hm
  simp only [delinquent] at h2
  simp [hs] at h2
  exact h2

theorem advMembers1_false (ms : List Member) :
    advMembers1 false ms = ms := by
  simp [advMembers1]

theorem advMembers1_noDelinquent (dl : Bool) (ms : List Member)
    (h : expelledAnyB ms = false) : advMembers1 dl ms = ms := by
  simp [advMembers1, h]

theorem delinquent_filter_nil (ms : List Member)
    (h : expelledAnyB ms = false) : ms.filter delinquent = [] := by
  apply List.filter_eq_nil_iff.mpr
  intro m hm
  simp only [expelledAnyB, List.any_eq_false] at h
  simp [h m hm]

theorem remaining_length_eq (dl : Bool) (ms : List Member) :
    (remainingPreview dl ms).length = activeCount (advMembers1 dl ms) := by
  cases dl with
  | false =>
    rw [remainingPreview_false, advMembers1_false]
    rfl
  | true =>
    rw [remainingPreview_true]
    by_cases hany : expelledAnyB ms = true
    · have hadv : advMembers1 true ms = renumber (expelPass ms) := by
        simp [advMembers1, hany]
      rw [hadv, activeCount_renumber, activeCount_expelPass]
    · have hany' : expelledAnyB ms = false := by simpa using hany
      rw [advMembers1_noDelinquent true ms hany', noDelinquent_filter ms hany']
      rfl

theorem remaining_deposited_iff (dl : Bool) (ms : List Member) :
    ((remainingPreview dl ms).filter (fun m => m.has_deposited)).length
        = (remainingPreview dl ms).length
      ↔ allDepositedB (advMembers1 dl ms) = true := by
  cases dl with
  | false =>
    rw [advMembers1_false, remainingPreview_false, filter_length_eq_iff,
        allDepositedB_iff]
    constructor
    · intro h m hm hs
      exact h m (List.mem_filter.mpr ⟨hm, by simp [hs]⟩)
    · intro h m hm
      obtain ⟨hm2, hs⟩ := List.mem_filter.mp hm
      exact h m hm2 (by simpa using hs)
  | true =>
    constructor
    · intro _
      by_cases hany : expelledAnyB ms = true
      · have hadv : advMembers1 true ms = renumber (expelPass ms) := by
          simp [advMembers1, hany]
        rw [hadv, renumber, allDepositedB_renumberGo, allDepositedB_expelPass]
      · have hany' : expelledAnyB ms = false := by simpa using hany
        rw [advMembers1_noDelinquent true ms hany']
        exact allDepositedB_of_noDelinquent ms hany'
    · intro _
      rw [filter_length_eq_iff]
      intro m hm
      rw [remainingPreview_true] at hm
      have := (List.mem_filter.mp hm).2
      simp only [Bool.and_eq_true] at this
      exact this.2

theorem expelCountPreview_delta (dl : Bool) (ms : List Member) :
    expelCountPreview dl ms
      = expelledCount (advMembers1 dl ms) - expelledCount ms := by
  cases dl with
  | false =>
    rw [expelCountPreview_false, advMembers1_false]
    omega
  | true =>
    rw [expelCountPreview_true]
    by_cases hany : expelledAnyB ms = true
    · have hadv : advMembers1 true ms = renumber (expelPass ms) := by
        simp [advMembers1, hany]
      rw [hadv, renumber, expelledCount_renumberGo, expelledCount_expelPass]
      omega
    · have hany' : expelledAnyB ms = false := by simpa using hany
      rw [advMembers1_noDelinquent true ms hany',
          delinquent_filter_nil ms hany']
      simp

theorem expelCountPreview_pos (dl : Bool) (ms : List Member) :
    decide (expelCountPreview dl ms > 0) = (dl && expelledAnyB ms) := by
  cases dl with
  | false =>
    rw [expelCountPreview_false]
    simp
  | true =>
    rw [expelCountPreview_true]
    simp only [Bool.true_and]
    by_cases hany : expelledAnyB ms = true
    · obtain ⟨m, hm, hdel⟩ := (expelledAnyB_true_iff ms).mp hany
      have hpos : 0 < (ms.filter delinquent).length :=
        List.length_pos.mpr
          (List.ne_nil_of_mem (List.mem_filter.mpr ⟨hm, hdel⟩))
      simp [hany, hpos]
    · have hany' : expelledAnyB ms = false := by simpa using hany
      rw [delinquent_filter_nil ms hany', hany']
      simp

theorem preview_beneficiary_eq (dl : Bool) (ms : List Member) (pos : Nat)
    (hzero : expelCountPreview dl ms = 0) :
    findBeneficiary pos (remainingPreview dl ms) = findBeneficiary pos ms
      ∧ advMembers1 dl ms = ms := by
  cases dl with
  | false =>
    rw [remainingPreview_false, advMembers1_false]
    refine ⟨findBeneficiary_filter pos _ ms ?_, rfl⟩
    intro m _ _ hs
    simp [hs]
  | true =>
    rw [expelCountPreview_true, List.length_eq_zero] at hzero
    have hany : expelledAnyB ms = false := by
      by_contra hc
      have hany : expelledAnyB ms = true := by simpa using hc
      obtain ⟨m, hm, hdel⟩ := (expelledAnyB_true_iff ms).mp hany
      have : m ∈ ms.filter delinquent := List.mem_filter.mpr ⟨hm, hdel⟩
      rw [hzero] at this
      simp at this
    rw [remainingPreview_true, noDelinquent_filter ms hany,
        advMembers1_noDelinquent true ms hany]
    refine ⟨findBeneficiary_filter pos _ ms ?_, rfl⟩
    intro m _ _ hs
    simp [hs]

/-- C3 counterexample: on the three-member tanda in cycle 2 with delinquent
member 2, `advance` pays 200 to member 3 (selected by the RENUMBERED
position 1), while `get_advance_status` reports `will_payout = true` but
`beneficiary = none`, because it searches the stale pre-renumbering
positions; and on the one-active-member tanda `advance` changes the state
(Active → Completed) while `can_advance` is `false`. -/
theorem C3_counterexample_stale_beneficiary :
    ((advance cfgW xfAll 518400 stC3).err = none
      ∧ (advance cfgW xfAll 518400 stC3).transfers
          = [⟨100, 3, 200⟩]
      ∧ get_advance_status 518400 stC3 = .ok (true, 1, true, none))
    ∧ ((advance cfgW xfAll 518400 expelAtDeadline.st).err = none
      ∧ (advance cfgW xfAll 518400 expelAtDeadline.st).st ≠ expelAtDeadline.st
      ∧ get_advance_status 518400 expelAtDeadline.st
          = .ok (false, 0, false, some 1)) :=
  ⟨⟨by decide, by decide, rfl⟩, ⟨by decide, by decide, rfl⟩⟩

/-- C3 amended: for a successful `advance` on a distinct-address roster,
`get_advance_status` agrees with `advance` on the expel count, on
`will_payout` (iff a payout transfer happens), and `can_advance` equals
`advance`'s RETURN VALUE (not "state changed": the shrink-to-Completed call
returns false); the reported beneficiary matches `advance`'s payee whenever
no expulsion happens, but after expulsions it is computed from stale
positions and may disagree (even be `none`). -/
theorem C3_advance_status_agreement (cfg : Cfg) (xf : XferOk) (now : Nat)
    (s : St) (t : Tanda) (ht : s.tanda = some t)
    (hnd : ((getMembers s).map (fun m => m.address)).Nodup)
    (hsucc : (advance cfg xf now s).err = none) :
    ∃ ca ec wp b,
      get_advance_status now s = .ok (ca, ec, wp, b)
      ∧ ca = (advance cfg xf now s).ret
      ∧ ec = expelledCount (getMembers (advance cfg xf now s).st)
              - expelledCount (getMembers s)
      ∧ (wp = true ↔ (advance cfg xf now s).transfers ≠ [])
      ∧ (ec = 0 → ∀ r p, (advance cfg xf now s).transfers
            = [⟨cfg.contractAddr, r, p⟩] → b = some r) := by
  by_cases h1 : t.status = TandaStatus.Active
  case neg =>
    exfalso
    have : (advance cfg xf now s).err = some Err.notActive := by
      simp [advance, ht, h1]
    rw [this] at hsucc
    exact Option.noConfusion hsucc
  case pos =>
  have hg : get_advance_status now s
      = .ok (decide (expelCountPreview
            (decide (now ≥ t.last_payout_at + delinquencySeconds))
            (getMembers s) > 0)
          || (decide ((remainingPreview
                (decide (now ≥ t.last_payout_at + delinquencySeconds))
                (getMembers s)).length > 1)
              && decide (((remainingPreview
                    (decide (now ≥ t.last_payout_at + delinquencySeconds))
                    (getMembers s)).filter
                      (fun m => m.has_deposited)).length
                  = (remainingPreview
                      (decide (now ≥ t.last_payout_at + delinquencySeconds))
                      (getMembers s)).length)),
          expelCountPreview
            (decide (now ≥ t.last_payout_at + delinquencySeconds))
            (getMembers s),
          decide ((remainingPreview
              (decide (now ≥ t.last_payout_at + delinquencySeconds))
              (getMembers s)).length > 1)
            && decide (((remainingPreview
                  (decide (now ≥ t.last_payout_at + delinquencySeconds))
                  (getMembers s)).filter
                    (fun m => m.has_deposited)).length
                = (remainingPreview
                    (decide (now ≥ t.last_payout_at + delinquencySeconds))
                    (getMembers s)).length),
          findBeneficiary (t.current_cycle - 1)
            (remainingPreview
              (decide (now ≥ t.last_payout_at + delinquencySeconds))
              (getMembers s))) := by
    simp only [get_advance_status, ht]
    rw [if_neg (not_not_intro h1)]
  have hrt := remaining_length_eq
    (decide (now ≥ t.last_payout_at + delinquencySeconds)) (getMembers s)
  by_cases hac :
    activeCount (advMembers1
      (decide (now ≥ t.last_payout_at + delinquencySeconds))
      (getMembers s)) ≤ 1
  · -- early-completion branch
    have hADV := advance_early_spec cfg xf now s t ht h1 hac
    have hwpF : (decide ((remainingPreview
          (decide (now ≥ t.last_payout_at + delinquencySeconds))
          (getMembers s)).length > 1)
        && decide (((remainingPreview
              (decide (now ≥ t.last_payout_at + delinquencySeconds))
              (getMembers s)).filter (fun m => m.has_deposited)).length
            = (remainingPreview
                (decide (now ≥ t.last_payout_at + delinquencySeconds))
                (getMembers s)).length)) = false := by
      have hle : ¬ ((remainingPreview
          (decide (now ≥ t.last_payout_at + delinquencySeconds))
          (getMembers s)).length > 1) := by omega
      simp [hle]
    refine ⟨_, _, _, _, hg, ?_, ?_, ?_, ?_⟩
    · simp only [hADV, hwpF, Bool.or_false]
      exact expelCountPreview_pos _ _
    · simp only [hADV, getMembers, Option.getD_some]
      exact expelCountPreview_delta _ _
    · simp only [hADV, hwpF]
      simp
    · intro _ r p heq
      simp only [hADV] at heq
      exact List.noConfusion heq
  · by_cases had :
      allDepositedB (advMembers1
        (decide (now ≥ t.last_payout_at + delinquencySeconds))
        (getMembers s)) = true
    · cases hb : findBeneficiary (t.current_cycle - 1)
          (advMembers1
            (decide (now ≥ t.last_payout_at + delinquencySeconds))
            (getMembers s)) with
      | none =>
        exfalso
        have : (advance cfg xf now s).err = some Err.beneficiaryNotFound := by
          simp [advance, ht, h1, hac, had, hb]
        rw [this] at hsucc
        exact Option.noConfusion hsucc
      | some r =>
        by_cases h3 : xf cfg.contractAddr r
            (t.amount * (activeCount (advMembers1
              (decide (now ≥ t.last_payout_at + delinquencySeconds))
              (getMembers s)) : Int)) = true
        · -- payout branch
          have hADV := advance_payout_spec cfg xf now s t r ht h1 hac had hb h3
          have hrtT : decide ((remainingPreview
              (decide (now ≥ t.last_payout_at + delinquencySeconds))
              (getMembers s)).length > 1) = true := by
            have : (remainingPreview
                (decide (now ≥ t.last_payout_at + delinquencySeconds))
                (getMembers s)).length > 1 := by omega
            simp [this]
          have hrdT : decide (((remainingPreview
                (decide (now ≥ t.last_payout_at + delinquencySeconds))
                (getMembers s)).filter (fun m => m.has_deposited)).length
              = (remainingPreview
                  (decide (now ≥ t.last_payout_at + delinquencySeconds))
                  (getMembers s)).length) = true := by
            have := (remaining_deposited_iff
              (decide (now ≥ t.last_payout_at + delinquencySeconds))
              (getMembers s)).mpr had
            simp [this]
          have hnd1 : ((advMembers1
              (decide (now ≥ t.last_payout_at + delinquencySeconds))
              (getMembers s)).map (fun m => m.address)).Nodup := by
            rw [advMembers1_map_address]
            exact hnd
          obtain ⟨mb, hmb, hmba, -, hmbs⟩ := findBeneficiary_some_mem _ _ _ hb
          have hsafe : ∀ m2 ∈ advMembers1
              (decide (now ≥ t.last_payout_at + delinquencySeconds))
              (getMembers s), m2.address = r →
                m2.status ≠ MemberStatus.Expelled := by
            intro m2 hm2 ha2
            have hm2b : m2 = mb :=
              mem_addr_unique _ hnd1 m2 mb hm2 hmb (by rw [ha2, hmba])
            rw [hm2b, hmbs]
            simp
          refine ⟨_, _, _, _, hg, ?_, ?_, ?_, ?_⟩
          · simp only [hADV, hrtT, hrdT, had]
            simp
          · have h2 : expelledCount (getMembers (advance cfg xf now s).st)
                = expelledCount (payoutMap r (advMembers1
                    (decide (now ≥ t.last_payout_at + delinquencySeconds))
                    (getMembers s))) := by
              rw [hADV]
              rfl
            rw [h2, expelledCount_payoutMap r _ hsafe]
            exact expelCountPreview_delta _ _
          · simp only [hADV, hrtT, hrdT]
            simp
          · intro h0 r' p' heq
            obtain ⟨hb0, hms1eq⟩ := preview_beneficiary_eq
              (decide (now ≥ t.last_payout_at + delinquencySeconds))
              (getMembers s) (t.current_cycle - 1) h0
            rw [hb0]
            rw [hms1eq] at hb
            simp only [hADV, List.cons.injEq, Transfer.mk.injEq] at heq
            rw [hb, heq.1.2.1]
        · exfalso
          have : (advance cfg xf now s).err = some Err.transferFailed := by
            simp [advance, ht, h1, hac, had, hb, h3]
          rw [this] at hsucc
          exact Option.noConfusion hsucc
    · -- no-payout branch
      have had' : allDepositedB (advMembers1
          (decide (now ≥ t.last_payout_at + delinquencySeconds))
          (getMembers s)) = false := by
        simpa using had
      have hADV := advance_nopay_spec cfg xf now s t ht h1 hac had'
      have hrdF : decide (((remainingPreview
            (decide (now ≥ t.last_payout_at + delinquencySeconds))
            (getMembers s)).filter (fun m => m.has_deposited)).length
          = (remainingPreview
              (decide (now ≥ t.last_payout_at + delinquencySeconds))
              (getMembers s)).length) = false := by
        have hne : ¬ (((remainingPreview
              (decide (now ≥ t.last_payout_at + delinquencySeconds))
              (getMembers s)).filter (fun m => m.has_deposited)).length
            = (remainingPreview
                (decide (now ≥ t.last_payout_at + delinquencySeconds))
                (getMembers s)).length) := by
          intro hc
          have := (remaining_deposited_iff
            (decide (now ≥ t.last_payout_at + delinquencySeconds))
            (getMembers s)).mp hc
          rw [this] at had'
          exact Bool.noConfusion had'
        simp [hne]
      refine ⟨_, _, _, _, hg, ?_, ?_, ?_, ?_⟩
      · simp only [hADV, hrdF, Bool.and_false, Bool.or_false, had']
        exact expelCountPreview_pos _ _
      · simp only [hADV, getMembers, Option.getD_some]
        exact expelCountPreview_delta _ _
      · simp only [hADV, hrdF, Bool.and_false]
        simp
      · intro _ r p heq
        simp only [hADV] at heq
        exact List.noConfusion heq

/-- Witness for C3's amended agreement at the concrete three-member state
(the call expels member 2 and pays member 3). -/
theorem C3_advance_status_agreement_witness :
    stC3.tanda = some tC3
    ∧ ((getMembers stC3).map (fun m => m.address)).Nodup
    ∧ (advance cfgW xfAll 518400 stC3).err = none
    ∧ ∃ ca ec wp b,
      get_advance_status 518400 stC3 = .ok (ca, ec, wp, b)
      ∧ ca = (advance cfgW xfAll 518400 stC3).ret
      ∧ ec = expelledCount (getMembers (advance cfgW xfAll 518400 stC3).st)
              - expelledCount (getMembers stC3)
      ∧ (wp = true ↔ (advance cfgW xfAll 518400 stC3).transfers ≠ [])
      ∧ (ec = 0 → ∀ r p, (advance cfgW xfAll 518400 stC3).transfers
            = [⟨cfgW.contractAddr, r, p⟩] → b = some r) :=
  ⟨by decide, by decide, by decide,
   C3_advance_status_agreement cfgW xfAll 518400 stC3 tC3 (by decide)
     (by decide) (by decide)⟩

end TandaContract
